import Mathlib

/-!
Verification development for the view-state and mutation engine of a
terminal dataframe viewer.  The definitions below are a shallow embedding
of the Python sources (`data_frame_table.py`, `common.py`, `main.py`):
the `ViewState` structure mirrors the `DataFrameTable` widget state, the
operation functions mirror the widget methods one for one, and
`parse_filter_expression` mirrors the expression compiler.  Theorems at
the end settle the specification claims against this embedding.
-/

/-- A typed cell value: the engine column categories used by the claims
(Integer, String, Boolean). -/
inductive Value : Type
  | vInt (n : Int)
  | vStr (s : String)
  | vBool (b : Bool)
deriving DecidableEq, Repr

/-- A cell is a value or null (`None` in the engine). -/
abbrev Cell : Type := Option Value

/-- One dataframe row: the list of its cells in column order. -/
abbrev Row : Type := List Cell

/-- Column dtype tag (drives conversion and search dispatch). -/
inductive DType : Type
  | dInt
  | dStr
  | dBool
deriving DecidableEq, Repr

/-- The working dataframe: named, typed columns and a list of rows.
Mirrors the Polars `DataFrame` at the level the claims need. -/
structure Df : Type where
  columns : List String
  dtypes : List DType
  rows : List Row
deriving DecidableEq, Repr

/-- One undo-history entry: a deep copy of the view state plus a
description, mirroring the `History` dataclass. -/
structure History : Type where
  description : String
  df : Df
  filename : String
  loaded_rows : Nat
  sorted_columns : List (String × Bool)
  selected_rows : List Bool
  visible_rows : List Bool
  fixed_rows : Nat
  fixed_columns : Nat
  cursor_coordinate : Nat × Nat
deriving DecidableEq, Repr

/-- The live session state of one `DataFrameTable`: working dataframe,
original dataframe, pagination cursor, ordered sort keys, selection and
visibility bitmaps, freeze panes, cursor and the undo stack. -/
structure ViewState : Type where
  dataframe : Df
  df : Df
  filename : String
  loaded_rows : Nat
  sorted_columns : List (String × Bool)
  selected_rows : List Bool
  visible_rows : List Bool
  fixed_rows : Nat
  fixed_columns : Nat
  cursor_coordinate : Nat × Nat
  histories : List History
deriving DecidableEq, Repr

/-- `INITIAL_BATCH_SIZE` from `common.py`. -/
def INITIAL_BATCH_SIZE : Nat := 100

/-- `BATCH_SIZE` from `common.py`. -/
def BATCH_SIZE : Nat := 50

/-- Apply a boolean keep-mask to a list, keeping entries whose mask bit is
true (the engine-side `filter` by a boolean list). -/
def maskFilter (mask : List Bool) (xs : List α) : List α :=
  (mask.zip xs).filterMap (fun p => if p.1 then some p.2 else none)

/-- Association lookup in the ordered sort-key mapping. -/
def lookupFlag (c : String) : List (String × Bool) → Option Bool
  | [] => none
  | (k, v) :: rest => if k = c then some v else lookupFlag c rest

/-- Index of the last `true` in a bitmap, plus one; `0` when none
(`_rindex(lst, True) + 1` in the source, with `-1 + 1 = 0`). -/
def highlightStop (xs : List Bool) : Nat :=
  match xs.reverse.findIdx? (fun b => b) with
  | none => 0
  | some i => xs.length - i

/-- The single-quote character. -/
def squoteChar : Char := Char.ofNat 39

/-- The double-quote character. -/
def dquoteChar : Char := Char.ofNat 34

/-- The space character. -/
def spaceChar : Char := Char.ofNat 32

/-- Surround a string with single quotes. -/
def quoteStr (s : String) : String :=
  String.singleton squoteChar ++ s ++ String.singleton squoteChar

/-- `\w` word characters of the token pattern. -/
def isWordChar (c : Char) : Bool := c.isAlphanum || c = '_'

/-- Characters of the single-char operator class of the token pattern. -/
def isOpClassChar (c : Char) : Bool :=
  c = '+' || c = '-' || c = '*' || c = '/' || c = '%' || c = '<' || c = '>' ||
    c = '=' || c = '(' || c = ')'

/-- The tokenizer of `parse_filter_expression` (`main.py`), fuel-indexed
for structural termination (the fuel is never exhausted when at least
`length + 1` is supplied): a scanner equivalent to `re.findall` with the
ordered alternatives column references, quoted strings, two-char
operators, single-char operators, numeric literals, words, then any
remaining character. -/
def tokenizeExprAux : Nat → List Char → List (List Char)
  | 0, _ => []
  | _ + 1, [] => []
  | fuel + 1, c :: cs =>
    if c = '$' then
      match cs with
      | [] => [[c]]
      | d :: cs2 =>
        if d = '_' then [c, d] :: tokenizeExprAux fuel cs2
        else if d.isDigit then
          (c :: cs.takeWhile Char.isDigit) ::
            tokenizeExprAux fuel (cs.dropWhile Char.isDigit)
        else if isWordChar d then
          (c :: cs.takeWhile isWordChar) ::
            tokenizeExprAux fuel (cs.dropWhile isWordChar)
        else [c] :: tokenizeExprAux fuel (d :: cs2)
    else if c = squoteChar || c = dquoteChar then
      let inner := cs.takeWhile (fun x => x ≠ c)
      match cs.dropWhile (fun x => x ≠ c) with
      | [] => [c] :: tokenizeExprAux fuel cs
      | _ :: rest => (c :: inner ++ [c]) :: tokenizeExprAux fuel rest
    else if c = '&' || c = '|' then
      match cs with
      | d :: cs2 =>
        if d = c then [c, d] :: tokenizeExprAux fuel cs2
        else [c] :: tokenizeExprAux fuel cs
      | [] => [[c]]
    else if c = '<' || c = '>' || c = '!' || c = '=' then
      match cs with
      | d :: cs2 =>
        if d = '=' then [c, d] :: tokenizeExprAux fuel cs2
        else [c] :: tokenizeExprAux fuel cs
      | [] => [[c]]
    else if c.isDigit then
      let ds := cs.takeWhile Char.isDigit
      match cs.dropWhile Char.isDigit with
      | d :: cs2 =>
        if d = '.' then
          (c :: ds ++ d :: cs2.takeWhile Char.isDigit) ::
            tokenizeExprAux fuel (cs2.dropWhile Char.isDigit)
        else (c :: ds) :: tokenizeExprAux fuel (d :: cs2)
      | [] => [c :: ds]
    else if isWordChar c then
      (c :: cs.takeWhile isWordChar) ::
        tokenizeExprAux fuel (cs.dropWhile isWordChar)
    else [c] :: tokenizeExprAux fuel cs

/-- Tokenize a whole expression (enough fuel for the input length). -/
def tokenizeExpr (cs : List Char) : List (List Char) :=
  tokenizeExprAux (cs.length + 1) cs

/-- Engine-native column reference `pl.col('name')`. -/
def plCol (name : String) : String := "pl.col(" ++ quoteStr name ++ ")"

/-- Numeric value of an all-digit token (the token scanner guarantees
digits only, so this is Python `int`). -/
def digitsVal (cs : List Char) : Nat :=
  cs.foldl (fun a c => a * 10 + (c.toNat - 48)) 0

/-- Convert one token, substituting `$`-references for `pl.col(...)` and
the logical operators for their parenthesised engine forms. -/
def convertToken (cols : List String) (current_col_idx : Nat)
    (tok : List Char) : Except String String :=
  match tok with
  | '$' :: colRef =>
    if colRef = ['_'] then
      if h : current_col_idx < cols.length then
        .ok (plCol (cols.get ⟨current_col_idx, h⟩))
      else .error "current column index out of range"
    else if colRef ≠ [] ∧ colRef.all Char.isDigit then
      let idx := digitsVal colRef
      if idx ≥ 1 ∧ idx ≤ cols.length then
        .ok (plCol (cols.getD (idx - 1) ""))
      else .error ("Column index out of range: " ++ String.mk tok)
    else if String.mk colRef ∈ cols then .ok (plCol (String.mk colRef))
    else .error ("Column not found: " ++ String.mk tok)
  | _ =>
    if tok = ['&', '&'] then .ok ") & ("
    else if tok = ['|', '|'] then .ok ") | ("
    else .ok (String.mk tok)

/-- `parse_filter_expression` from `main.py`: tokenize, convert each
token, join with single spaces and wrap the whole result in one outer
parenthesis pair. -/
def parse_filter_expression (expression : String) (cols : List String)
    (current_col_idx : Nat) : Except String String := do
  let toks := tokenizeExpr expression.toList
  if toks.isEmpty then throw "Expression is empty"
  let converted ← toks.mapM (convertToken cols current_col_idx)
  return "(" ++ String.intercalate " " converted ++ ")"

/-- Engine expressions (the fragment of Polars expressions the compiled
strings denote). -/
inductive PlExpr : Type
  | col (c : String)
  | litInt (n : Int)
  | litStr (s : String)
  | gtE (a b : PlExpr)
  | eqE (a b : PlExpr)
  | andE (a b : PlExpr)
deriving DecidableEq, Repr

/-- Render an engine expression in the engine-native string syntax. -/
def renderPl : PlExpr → String
  | .col c => plCol c
  | .litInt n => toString n
  | .litStr s => quoteStr s
  | .gtE a b => renderPl a ++ " > " ++ renderPl b
  | .eqE a b => renderPl a ++ " == " ++ renderPl b
  | .andE a b => "(" ++ renderPl a ++ ") & (" ++ renderPl b ++ ")"

/-- Render a top-level engine expression including the compiler's outer
parenthesis pair (a conjunction already carries its own parentheses). -/
def renderTop : PlExpr → String
  | .andE a b => "(" ++ renderPl a ++ ") & (" ++ renderPl b ++ ")"
  | e => "(" ++ renderPl e ++ ")"

/-- Evaluate an engine expression against a row given as a named-cell
lookup; comparisons on null or ill-typed operands yield null. -/
def evalPl : PlExpr → (String → Cell) → Cell
  | .col c, r => r c
  | .litInt n, _ => some (.vInt n)
  | .litStr s, _ => some (.vStr s)
  | .gtE a b, r =>
    match evalPl a r, evalPl b r with
    | some (.vInt x), some (.vInt y) => some (.vBool (x > y))
    | _, _ => none
  | .eqE a b, r =>
    match evalPl a r, evalPl b r with
    | some (.vInt x), some (.vInt y) => some (.vBool (x = y))
    | some (.vStr x), some (.vStr y) => some (.vBool (x = y))
    | some (.vBool x), some (.vBool y) => some (.vBool (x = y))
    | _, _ => none
  | .andE a b, r =>
    match evalPl a r, evalPl b r with
    | some (.vBool x), some (.vBool y) => some (.vBool (x && y))
    | _, _ => none

/-- Remove every space from a string (whitespace between tokens is
insignificant to the engine expression parser). -/
def stripSpaces (s : String) : String :=
  String.mk (s.toList.filter (fun c => c ≠ spaceChar))

/-- `_load_rows` (`data_frame_table.py`): clamp the stop index to the
dataframe length, no-op when everything up to `stop` is already loaded,
otherwise materialize the visible rows of `[loaded_rows, stop)` (hidden
rows are skipped but still counted) and set `loaded_rows = stop`.  The
second component lists the df indices of the rows actually materialized. -/
def load_rows (s : ViewState) (stopQ : Option Nat) : ViewState × List Nat :=
  let n := s.df.rows.length
  let stop := match stopQ with
    | none => n
    | some t => if t > n then n else t
  if stop ≤ s.loaded_rows then (s, [])
  else
    ({ s with loaded_rows := stop },
      (List.range' s.loaded_rows (stop - s.loaded_rows)).filter
        (fun i => s.visible_rows.getD i true))

/-- The initial-batch scan of `_setup_table`: walk the visibility bitmap
counting visible rows and stop one past the index where the count reaches
`INITIAL_BATCH_SIZE`; default to the full length. -/
def initialStopScan : List Bool → Nat → Nat → Option Nat
  | [], _, _ => none
  | v :: rest, idx, cnt =>
    if v then
      if cnt + 1 ≥ INITIAL_BATCH_SIZE then some (idx + 1)
      else initialStopScan rest (idx + 1) (cnt + 1)
    else initialStopScan rest (idx + 1) cnt

/-- Stop index for the initial lazy load in `_setup_table`. -/
def initial_stop (s : ViewState) : Nat :=
  (initialStopScan s.visible_rows 0 0).getD s.df.rows.length

/-- `_setup_table`: optionally reset to the original dataframe, then
rebuild the display, re-running the lazy load from row 0 (this is the
only state component it changes when `reset` is false). -/
def setup_table (reset : Bool) (s : ViewState) : ViewState :=
  let s :=
    if reset then
      { s with
        df := s.dataframe
        loaded_rows := 0
        sorted_columns := []
        selected_rows := List.replicate s.dataframe.rows.length false
        visible_rows := List.replicate s.dataframe.rows.length true
        fixed_rows := 0
        fixed_columns := 0 }
    else s
  let stop := initial_stop s
  (load_rows { s with loaded_rows := 0 } (some stop)).1

/-- Snapshot the current state into a `History` entry
(`_add_history` builds exactly this record). -/
def snapshotOf (description : String) (s : ViewState) : History :=
  { description := description
    df := s.df
    filename := s.filename
    loaded_rows := s.loaded_rows
    sorted_columns := s.sorted_columns
    selected_rows := s.selected_rows
    visible_rows := s.visible_rows
    fixed_rows := s.fixed_rows
    fixed_columns := s.fixed_columns
    cursor_coordinate := s.cursor_coordinate }

/-- `_add_history`: push the snapshot on the LIFO stack. -/
def add_history (description : String) (s : ViewState) : ViewState :=
  { s with histories := snapshotOf description s :: s.histories }

/-- `_undo`: with an empty stack, report "no actions to undo" and change
nothing; otherwise pop the most recent entry, restore every state field
from it and rebuild the display. -/
def undo (s : ViewState) : ViewState × List String :=
  match s.histories with
  | [] => (s, ["No actions to undo"])
  | h :: rest =>
    let s1 := { s with
      df := h.df
      filename := h.filename
      loaded_rows := h.loaded_rows
      sorted_columns := h.sorted_columns
      selected_rows := h.selected_rows
      visible_rows := h.visible_rows
      fixed_rows := h.fixed_rows
      fixed_columns := h.fixed_columns
      cursor_coordinate := h.cursor_coordinate
      histories := rest }
    (setup_table false s1, ["Reverted: " ++ h.description])

/-- `_highlight_rows`: return unchanged when nothing is selected; on
`clear` wipe the selection bitmap; ensure rows up to the last selected
one are loaded. -/
def highlight_rows (clear : Bool) (s : ViewState) : ViewState :=
  if s.selected_rows.count true = 0 then s
  else
    let s :=
      if clear then { s with selected_rows := List.replicate s.df.rows.length false }
      else s
    (load_rows s (some (highlightStop s.selected_rows))).1

/-- Dataframe row index of the `i`-th display row: display rows are the
visible rows among the loaded prefix, in order (`add_row` keys). -/
def display_rid (s : ViewState) (i : Nat) : Nat :=
  ((List.range s.loaded_rows).filter (fun j => s.visible_rows.getD j true)).getD i 0

/-- Number of display rows currently in the table widget. -/
def num_display_rows (s : ViewState) : Nat :=
  ((List.range s.loaded_rows).filter (fun j => s.visible_rows.getD j true)).length

/-- `_do_freeze`: push history, then apply each strictly positive count. -/
def do_freeze (fr fc : Nat) (s : ViewState) : ViewState × List String :=
  let s1 := add_history "Pinned rows and columns" s
  let s2 := if fr > 0 then { s1 with fixed_rows := fr } else s1
  let s3 := if fc > 0 then { s2 with fixed_columns := fc } else s2
  (s3, ["Pinned"])

/-- Drop the column named `c` from the dataframe (name, dtype and the
cell of every row). -/
def dropColumnByName (df : Df) (c : String) : Df :=
  let i := df.columns.indexOf c
  { columns := df.columns.eraseIdx i
    dtypes := df.dtypes.eraseIdx i
    rows := df.rows.map (fun r => r.eraseIdx i) }

/-- `_delete_column`: no-op when the cursor column is out of range; else
push history, clamp the cursor if the last column was removed, remove the
column from the sort keys and drop it from the dataframe. -/
def delete_column (s : ViewState) : ViewState × List String :=
  let col_idx := s.cursor_coordinate.2
  if col_idx ≥ s.df.columns.length then (s, [])
  else
    let col := s.df.columns.getD col_idx ""
    let s1 := add_history ("Removed column " ++ col) s
    let ncols2 := s1.df.columns.length - 1
    let s2 :=
      if col_idx ≥ ncols2 then
        { s1 with cursor_coordinate := (s1.cursor_coordinate.1, ncols2 - 1) }
      else s1
    let s3 := { s2 with
      sorted_columns := s2.sorted_columns.filter (fun p => p.1 ≠ col)
      df := dropColumnByName s2.df col }
    (s3, ["Removed column " ++ col])

/-- `_delete_row`: build the keep-mask (drop every selected row, or just
the cursor row when none is selected), push history, filter the
dataframe and compact `selected_rows`/`visible_rows` with the same mask,
then rebuild the display. -/
def delete_row (s : ViewState) : ViewState × List String :=
  let n := s.df.rows.length
  let selectedCount := s.selected_rows.count true
  let keep : List Bool :=
    if selectedCount > 0 then
      (List.range n).map (fun i => !(s.selected_rows.getD i false))
    else
      (List.range n).map (fun i => decide (i ≠ display_rid s s.cursor_coordinate.1))
  let desc := if selectedCount > 0 then "Deleted selected rows" else "Deleted row"
  let s1 := add_history desc s
  let s2 := { s1 with
    df := { s1.df with rows := maskFilter keep s1.df.rows }
    selected_rows := maskFilter keep s1.selected_rows
    visible_rows := maskFilter keep s1.visible_rows }
  (setup_table false s2, ["Deleted rows"])

/-- Swap the entries at positions `i` and `j` (identity when either is
out of range). -/
def listSwap (xs : List α) (i j : Nat) : List α :=
  match xs.get? i, xs.get? j with
  | some a, some b => (xs.set i b).set j a
  | _, _ => xs

/-- Swap two columns of the dataframe (`df.select` with a swapped column
list reorders names, dtypes and the cells of every row). -/
def swapColumns (df : Df) (i j : Nat) : Df :=
  { columns := listSwap df.columns i j
    dtypes := listSwap df.dtypes i j
    rows := df.rows.map (fun r => listSwap r i j) }

/-- `_move_column`: boundary moves warn and change nothing; otherwise
push history, swap the two columns and move the cursor onto the moved
column. -/
def move_column (left : Bool) (s : ViewState) : ViewState × List String :=
  let row_idx := s.cursor_coordinate.1
  let col_idx := s.cursor_coordinate.2
  if left ∧ col_idx = 0 then (s, ["Cannot move column left"])
  else if ¬left ∧ col_idx + 1 ≥ s.df.columns.length then
    (s, ["Cannot move column right"])
  else
    let swap_idx := if left then col_idx - 1 else col_idx + 1
    let s1 := add_history "Moved column" s
    let s2 := { s1 with
      cursor_coordinate := (row_idx, swap_idx)
      df := swapColumns s1.df col_idx swap_idx }
    (s2, ["Moved column"])

/-- The five-slice concatenation of `_move_row` that swaps the rows at
positions `rid` and `swap_rid` of the dataframe. -/
def swapRowsConcat (rows : List α) (rid swap_rid : Nat) : List α :=
  let first := min rid swap_rid
  let second := max rid swap_rid
  rows.take first ++ (rows.drop second).take 1 ++
    ((rows.drop (first + 1)).take (second - first - 1)) ++
    (rows.drop first).take 1 ++ rows.drop (second + 1)

/-- `_move_row`: boundary moves warn and change nothing; otherwise push
history, swap the two dataframe rows and move the cursor; the selection
and visibility bitmaps are not touched. -/
def move_row (up : Bool) (s : ViewState) : ViewState × List String :=
  let row_idx := s.cursor_coordinate.1
  let col_idx := s.cursor_coordinate.2
  if up ∧ row_idx = 0 then (s, ["Cannot move row up"])
  else if ¬up ∧ row_idx + 1 ≥ num_display_rows s then (s, ["Cannot move row down"])
  else
    let swap_idx := if up then row_idx - 1 else row_idx + 1
    let rid := display_rid s row_idx
    let swap_rid := display_rid s swap_idx
    let s1 := add_history "Moved row" s
    let s2 := { s1 with
      cursor_coordinate := (swap_idx, col_idx)
      df := { s1.df with rows := swapRowsConcat s1.df.rows rid swap_rid } }
    (s2, ["Moved row"])

/-- Rank used to order values of different column categories (a real
column never mixes categories, so any fixed choice is faithful). -/
def valueRank : Value → Nat
  | .vInt _ => 0
  | .vStr _ => 1
  | .vBool _ => 2

/-- Total order on cell values: numeric on integers, lexicographic on
strings, false before true on booleans. -/
def valLE (a b : Value) : Bool :=
  match a, b with
  | .vInt x, .vInt y => decide (x ≤ y)
  | .vStr x, .vStr y => decide (x ≤ y)
  | .vBool x, .vBool y => !x || y
  | _, _ => decide (valueRank a ≤ valueRank b)

/-- Per-key cell comparison with `nulls_last=True`: a null compares
after every value regardless of direction; otherwise compare by
`valLE`, flipped when the key is descending. -/
def cellLE (descending : Bool) (a b : Cell) : Bool :=
  match a, b with
  | none, none => true
  | none, some _ => false
  | some _, none => true
  | some x, some y => if descending then valLE y x else valLE x y

/-- Cell of row `r` in the column named `c`. -/
def cellOfCol (cols : List String) (r : Row) (c : String) : Cell :=
  r.getD (cols.indexOf c) none

/-- Lexicographic multi-key row comparison used by the engine sort:
ties on a key fall through to the next key. -/
def rowLE (cols : List String) (keys : List (String × Bool)) (r t : Row) : Bool :=
  match keys with
  | [] => true
  | (c, d) :: ks =>
    let a := cellOfCol cols r c
    let b := cellOfCol cols t c
    if a = b then rowLE cols ks r t else cellLE d a b

/-- The engine-side tagged sort of `_sort_by_column`: rows are tagged
with their original index (`with_row_index`), then stably sorted by the
key columns with nulls last. -/
def sortedTagged (cols : List String) (keys : List (String × Bool))
    (rows : List Row) : List (Nat × Row) :=
  List.insertionSort (fun p q : Nat × Row => rowLE cols keys p.2 q.2 = true)
    rows.enum

/-- The old-to-new row permutation read back from the tag column
(`df_sorted["__rid__"]`): entry `j` is the old index of the row that
lands at new position `j`. -/
def sortPerm (cols : List String) (keys : List (String × Bool))
    (rows : List Row) : List Nat :=
  (sortedTagged cols keys rows).map Prod.fst

/-- `_sort_by_column`: no-op when the cursor column is out of range;
when the column is already a key with the same flag, warn and change
nothing; otherwise push history, append (or re-append with the new
flag) the key, apply the stable multi-key sort with nulls last, remap
`selected_rows` and `visible_rows` by the same permutation, rebuild the
display and reset the cursor to row 0 of the sorted column. -/
def sort_by_column (descending : Bool) (s : ViewState) : ViewState × List String :=
  let col_idx := s.cursor_coordinate.2
  if col_idx ≥ s.df.columns.length then (s, [])
  else
    let col := s.df.columns.getD col_idx ""
    let old := lookupFlag col s.sorted_columns
    if old = some descending then (s, ["Already sorted"])
    else
      let s1 := add_history ("Sorted on column " ++ col) s
      let keys :=
        if old = none then s1.sorted_columns ++ [(col, descending)]
        else (s1.sorted_columns.filter (fun p => p.1 ≠ col)) ++ [(col, descending)]
      let perm := sortPerm s1.df.columns keys s1.df.rows
      let s2 := { s1 with
        sorted_columns := keys
        df := { s1.df with rows := perm.map (fun i => s1.df.rows.getD i []) }
        selected_rows := perm.map (fun i => s1.selected_rows.getD i false)
        visible_rows := perm.map (fun i => s1.visible_rows.getD i true) }
      let s3 := setup_table false s2
      ({ s3 with cursor_coordinate := (0, col_idx) }, [])

/-- `BOOLS` from `common.py`. -/
def BOOLS : List (String × Bool) :=
  [("true", true), ("t", true), ("yes", true), ("y", true), ("1", true),
   ("false", false), ("f", false), ("no", false), ("n", false), ("0", false)]

/-- `BOOLS[s]` as a partial lookup. -/
def boolsLookup (s : String) : Option Bool :=
  (BOOLS.find? (fun p => p.1 = s)).map Prod.snd

/-- ASCII lower-casing of one character (`str.lower`). -/
def lowerChar (c : Char) : Char :=
  if c.toNat ≥ 65 ∧ c.toNat ≤ 90 then Char.ofNat (c.toNat + 32) else c

/-- ASCII lower-casing of a string (`str.lower`). -/
def toLowerStr (s : String) : String := String.mk (s.toList.map lowerChar)

/-- ASCII whitespace stripped by Python `int()` around a numeral:
space, tab through carriage return, and the separator controls. -/
def isPySpace (c : Char) : Bool :=
  decide (c.toNat = 32 ∨ (9 ≤ c.toNat ∧ c.toNat ≤ 13) ∨
    (28 ≤ c.toNat ∧ c.toNat ≤ 31))

/-- Strip surrounding whitespace from a character list. -/
def stripWs (cs : List Char) : List Char :=
  ((cs.dropWhile isPySpace).reverse.dropWhile isPySpace).reverse

/-- Continue a Python integer numeral after its first digit: further
digits, with single underscores allowed only between digits. -/
def digitsAux : List Char → Nat → Option Nat
  | [], acc => some acc
  | '_' :: c :: rest, acc =>
    if c.isDigit then digitsAux rest (acc * 10 + (c.toNat - 48)) else none
  | ['_'], _ => none
  | c :: rest, acc =>
    if c.isDigit then digitsAux rest (acc * 10 + (c.toNat - 48)) else none

/-- Value of a Python integer numeral body: one digit, then digits with
single underscores between digits (`digit (["_"] digit)*`). -/
def digitsToNat? : List Char → Option Nat
  | [] => none
  | c :: rest =>
    if c.isDigit then digitsAux rest (c.toNat - 48) else none

/-- The Python `int(str)` conversion on ASCII input: surrounding
whitespace is stripped, then an optional sign followed by digits with
single underscores between digits; `none` models the raised
`ValueError`. -/
def strToInt? (s : String) : Option Int :=
  match stripWs s.toList with
  | [] => none
  | c :: rest =>
    if c = '-' then (digitsToNat? rest).map (fun n => -(n : Int))
    else if c = '+' then (digitsToNat? rest).map (fun n => (n : Int))
    else (digitsToNat? (c :: rest)).map (fun n => (n : Int))

/-- The per-dtype `convert` functions of `common.py`: `int` for Integer
columns, `str` for String columns, the `BOOLS` table for Boolean
columns; `none` models the raised conversion error. -/
def convertValue (dtype : DType) (v : String) : Option Value :=
  match dtype with
  | .dInt => (strToInt? v).map Value.vInt
  | .dStr => some (.vStr v)
  | .dBool => (boolsLookup (toLowerStr v)).map Value.vBool

/-- The edit-cell flow (`_edit_cell` + `EditCellScreen` validation +
`_do_edit_cell`): after the range check, `_edit_cell` pushes the history
entry and only then the dialog converts the entered string; a failed
conversion leaves everything else untouched, a successful one rewrites
the single cell. -/
def edit_cell (new_value_str : String) (s : ViewState) : ViewState × List String :=
  let rid := display_rid s s.cursor_coordinate.1
  let col_idx := s.cursor_coordinate.2
  if rid ≥ s.df.rows.length ∨ col_idx ≥ s.df.columns.length then (s, [])
  else
    let s1 := add_history "Edited cell" s
    match convertValue (s1.df.dtypes.getD col_idx .dStr) new_value_str with
    | none => (s1, ["Failed to convert"])
    | some v =>
      let row := s1.df.rows.getD rid []
      ({ s1 with
          df := { s1.df with rows := s1.df.rows.set rid (row.set col_idx (some v)) } },
        ["Cell updated"])

/-- Substring test. This models polars `str.contains(term)` only for a
term free of regex metacharacters: `str.contains` treats the term as a
regular expression, of which a plain literal is the substring case. -/
def strContainsSub (hay needle : String) : Bool :=
  decide (needle.toList <:+: hay.toList)

/-- The type-aware match predicate of `_search_single_column`: the
literal `null` (case-insensitive) matches nulls; String columns match by
`str.contains(term)`, a regex match that this embedding models only for
metacharacter-free terms, where it is a substring test; Boolean columns
by the `BOOLS` value; Integer columns by exact equality with
`int(term)`; `none` models an unparsable term. -/
def searchPred (dtype : DType) (term : String) : Option (Cell → Bool) :=
  if toLowerStr term = "null" then some (fun c => c.isNone)
  else
    match dtype with
    | .dStr => some (fun c =>
        match c with
        | some (.vStr x) => strContainsSub x term
        | _ => false)
    | .dBool => (boolsLookup (toLowerStr term)).map (fun b => fun c => decide (c = some (.vBool b)))
    | .dInt => (strToInt? term).map (fun k => fun c => decide (c = some (.vInt k)))

/-- `_search_single_column` on the cursor column: restrict to visible
rows, compute the type-aware matches, warn without change when there are
none, otherwise push history and add the matches to `selected_rows`
(union); `visible_rows` is never touched. -/
def search_single_column (term : String) (s : ViewState) : ViewState × List String :=
  let col_idx := s.cursor_coordinate.2
  if col_idx ≥ s.df.columns.length then (s, ["Invalid column selected"])
  else
    match searchPred (s.df.dtypes.getD col_idx .dStr) term with
    | none => (s, ["Search not supported"])
    | some pred =>
      let matched := (List.range s.df.rows.length).filter
        (fun i => s.visible_rows.getD i true &&
          pred ((s.df.rows.getD i []).getD col_idx none))
      if matched.isEmpty then (s, ["No matches found"])
      else
        let s1 := add_history ("Searched and highlighted " ++ term) s
        let s2 := { s1 with
          selected_rows := s1.selected_rows.mapIdx (fun i b => b || matched.contains i) }
        (highlight_rows false s2, ["Found matches"])

/-- `_toggle_selected_rows`: push history, then flip the cursor row bit
or invert the whole selection bitmap. -/
def toggle_selected_rows (current_row : Bool) (s : ViewState) : ViewState × List String :=
  let s1 := add_history "Toggled row selection" s
  let s2 :=
    if current_row then
      let i := display_rid s1 s1.cursor_coordinate.1
      { s1 with selected_rows := s1.selected_rows.set i (!(s1.selected_rows.getD i false)) }
    else { s1 with selected_rows := s1.selected_rows.map (fun b => !b) }
  (highlight_rows false s2, ["Toggled selection"])

/-- `_clear_selected_rows`: warn without change when nothing is
selected; otherwise push history and clear the bitmap. -/
def clear_selected_rows (s : ViewState) : ViewState × List String :=
  if s.selected_rows.count true = 0 then (s, ["No rows selected to clear"])
  else
    let s1 := add_history "Cleared all selected rows" s
    (highlight_rows true s1, ["Cleared selected rows"])

/-- `_filter_selected_rows`: warn without change when nothing is
selected; otherwise push history, hard-filter the dataframe to the
selected rows and reset `selected_rows` to all-true at the new length
(`visible_rows` is not resized). -/
def filter_selected_rows (s : ViewState) : ViewState × List String :=
  if s.selected_rows.count true = 0 then (s, ["No rows selected to filter"])
  else
    let s1 := add_history "Filtered to selected rows" s
    let s2 := { s1 with
      df := { s1.df with rows := maskFilter s1.selected_rows s1.df.rows } }
    let s3 := { s2 with selected_rows := List.replicate s2.df.rows.length true }
    (setup_table false s3, ["Removed unselected rows"])

/-- `_do_filter` with a compiled predicate: restrict to visible rows,
warn without change when nothing matches, otherwise push history and
mark every unmatched row invisible and unselected. -/
def do_filter (pred : Row → Bool) (s : ViewState) : ViewState × List String :=
  let matched := (List.range s.df.rows.length).filter
    (fun i => s.visible_rows.getD i true && pred (s.df.rows.getD i []))
  if matched.isEmpty then (s, ["No rows match the expression"])
  else
    let s1 := add_history "Filtered by expression" s
    let s2 := { s1 with
      visible_rows := s1.visible_rows.mapIdx (fun i v => if matched.contains i then v else false)
      selected_rows := s1.selected_rows.mapIdx (fun i b => if matched.contains i then b else false) }
    (setup_table false s2, ["Filtered to matching rows"])

/-- The mutating operations of the table (the user intents that touch
the view state). -/
inductive Op : Type
  | opFreeze (fr fc : Nat)
  | opDeleteColumn
  | opDeleteRow
  | opMoveColumn (left : Bool)
  | opMoveRow (up : Bool)
  | opSort (descending : Bool)
  | opEditCell (v : String)
  | opSearch (term : String)
  | opToggleSelected (current : Bool)
  | opClearSelected
  | opFilterSelected
  | opFilterExpr (p : Row → Bool)

/-- Dispatch one operation against the live state. -/
def applyOp : Op → ViewState → ViewState × List String
  | .opFreeze fr fc, s => do_freeze fr fc s
  | .opDeleteColumn, s => delete_column s
  | .opDeleteRow, s => delete_row s
  | .opMoveColumn left, s => move_column left s
  | .opMoveRow up, s => move_row up s
  | .opSort descending, s => sort_by_column descending s
  | .opEditCell v, s => edit_cell v s
  | .opSearch term, s => search_single_column term s
  | .opToggleSelected current, s => toggle_selected_rows current s
  | .opClearSelected, s => clear_selected_rows s
  | .opFilterSelected, s => filter_selected_rows s
  | .opFilterExpr p, s => do_filter p s

/-- Agreement on the state components named by the undo-exactness claim:
dataset contents, sort keys, selection, visibility, freeze panes and
cursor. -/
def agreeState (a b : ViewState) : Prop :=
  a.df = b.df ∧ a.sorted_columns = b.sorted_columns ∧
  a.selected_rows = b.selected_rows ∧ a.visible_rows = b.visible_rows ∧
  a.fixed_rows = b.fixed_rows ∧ a.fixed_columns = b.fixed_columns ∧
  a.cursor_coordinate = b.cursor_coordinate

/-- Concrete two-row integer dataframe for witnesses. -/
def wDf : Df :=
  { columns := ["a"], dtypes := [.dInt],
    rows := [[some (.vInt 1)], [some (.vInt 2)]] }

/-- Concrete view state over `wDf` with empty history. -/
def wState : ViewState :=
  { dataframe := wDf, df := wDf, filename := "t", loaded_rows := 2,
    sorted_columns := [], selected_rows := [false, false],
    visible_rows := [true, true], fixed_rows := 0, fixed_columns := 0,
    cursor_coordinate := (0, 0), histories := [] }

/-- Concrete state with one selected row (and cursor on an Integer
column), used for the bitmap-invariant and validation claims. -/
def stC2 : ViewState :=
  { dataframe := wDf, df := wDf, filename := "t", loaded_rows := 2,
    sorted_columns := [], selected_rows := [true, false],
    visible_rows := [true, true], fixed_rows := 0, fixed_columns := 0,
    cursor_coordinate := (0, 0), histories := [] }

/-- Integer column containing 42, 142 and a null. -/
def dfC8 : Df :=
  { columns := ["a"], dtypes := [.dInt]
    rows := [[some (.vInt 42)], [some (.vInt 142)], [none]] }

/-- State over `dfC8` with all rows visible and none selected. -/
def stC8 : ViewState :=
  { dataframe := dfC8, df := dfC8, filename := "t", loaded_rows := 3
    sorted_columns := [], selected_rows := [false, false, false]
    visible_rows := [true, true, true], fixed_rows := 0, fixed_columns := 0
    cursor_coordinate := (0, 0), histories := [] }

/-- State over `dfC8` with the cursor on display row 1. -/
def stC10 : ViewState := { stC8 with cursor_coordinate := (1, 0) }

/-- Ten-row integer dataframe. -/
def dfC6 : Df :=
  { columns := ["a"], dtypes := [.dInt]
    rows := (List.range 10).map (fun i => [some (.vInt i)]) }

/-- Ten rows, the first three selected, all visible. -/
def stC6 : ViewState :=
  { dataframe := dfC6, df := dfC6, filename := "t", loaded_rows := 10
    sorted_columns := []
    selected_rows := [true, true, true, false, false, false, false, false,
      false, false]
    visible_rows := List.replicate 10 true, fixed_rows := 0, fixed_columns := 0
    cursor_coordinate := (0, 0), histories := [] }

/-- The ordered sort-key mapping after one `toggle_sort` commit: a fresh
column is appended; a column already present with the opposite flag is
removed and re-appended with the new flag. -/
def sortKeysAfter (s : ViewState) (descending : Bool) : List (String × Bool) :=
  let col := s.df.columns.getD s.cursor_coordinate.2 ""
  if lookupFlag col s.sorted_columns = none then
    s.sorted_columns ++ [(col, descending)]
  else (s.sorted_columns.filter (fun p => p.1 ≠ col)) ++ [(col, descending)]

/-- State over `dfC8` already sorted ascending on its column. -/
def stSortedW : ViewState := { stC8 with sorted_columns := [("a", false)] }

/-- Integer column with a null value. -/
def dfC9 : Df :=
  { columns := ["a"], dtypes := [.dInt]
    rows := [[some (.vInt 1)], [none]] }

/-- State over `dfC9`, unsorted, cursor on the column. -/
def stC9 : ViewState :=
  { dataframe := dfC9, df := dfC9, filename := "t", loaded_rows := 2
    sorted_columns := [], selected_rows := [false, false]
    visible_rows := [true, true], fixed_rows := 0, fixed_columns := 0
    cursor_coordinate := (0, 0), histories := [] }

/-- Distinct non-null integer column for the C9 witness. -/
def dfW9 : Df :=
  { columns := ["a"], dtypes := [.dInt]
    rows := [[some (.vInt 5)], [some (.vInt 2)], [some (.vInt 9)]] }

/-- State over `dfW9`, unsorted, cursor on the column. -/
def stW9 : ViewState :=
  { dataframe := dfW9, df := dfW9, filename := "t", loaded_rows := 3
    sorted_columns := [], selected_rows := [false, false, false]
    visible_rows := [true, true, true], fixed_rows := 0, fixed_columns := 0
    cursor_coordinate := (0, 0), histories := [] }

/-- Dropping a prefix cannot lengthen a list. -/
theorem length_dropWhile_le (p : α → Bool) (l : List α) :
    (l.dropWhile p).length ≤ l.length :=
  (List.dropWhile_sublist p).length_le

/-- `_load_rows` changes only the pagination cursor. -/
theorem load_rows_fields (s : ViewState) (t : Option Nat) :
    (load_rows s t).1.df = s.df ∧ (load_rows s t).1.sorted_columns = s.sorted_columns ∧
    (load_rows s t).1.selected_rows = s.selected_rows ∧
    (load_rows s t).1.visible_rows = s.visible_rows ∧
    (load_rows s t).1.fixed_rows = s.fixed_rows ∧
    (load_rows s t).1.fixed_columns = s.fixed_columns ∧
    (load_rows s t).1.cursor_coordinate = s.cursor_coordinate ∧
    (load_rows s t).1.histories = s.histories ∧
    (load_rows s t).1.filename = s.filename ∧
    (load_rows s t).1.dataframe = s.dataframe := by
  unfold load_rows
  dsimp only
  split <;> simp

/-- A non-reset `_setup_table` changes only the pagination cursor. -/
theorem setup_table_fields (s : ViewState) :
    (setup_table false s).df = s.df ∧
    (setup_table false s).sorted_columns = s.sorted_columns ∧
    (setup_table false s).selected_rows = s.selected_rows ∧
    (setup_table false s).visible_rows = s.visible_rows ∧
    (setup_table false s).fixed_rows = s.fixed_rows ∧
    (setup_table false s).fixed_columns = s.fixed_columns ∧
    (setup_table false s).cursor_coordinate = s.cursor_coordinate ∧
    (setup_table false s).histories = s.histories ∧
    (setup_table false s).filename = s.filename ∧
    (setup_table false s).dataframe = s.dataframe := by
  unfold setup_table
  dsimp only [if_neg Bool.false_ne_true]
  exact load_rows_fields _ _

/-- A non-clearing `_highlight_rows` changes only the pagination cursor. -/
theorem highlight_rows_fields (s : ViewState) :
    (highlight_rows false s).df = s.df ∧
    (highlight_rows false s).sorted_columns = s.sorted_columns ∧
    (highlight_rows false s).selected_rows = s.selected_rows ∧
    (highlight_rows false s).visible_rows = s.visible_rows ∧
    (highlight_rows false s).fixed_rows = s.fixed_rows ∧
    (highlight_rows false s).fixed_columns = s.fixed_columns ∧
    (highlight_rows false s).cursor_coordinate = s.cursor_coordinate ∧
    (highlight_rows false s).histories = s.histories ∧
    (highlight_rows false s).filename = s.filename := by
  unfold highlight_rows
  dsimp only
  split
  · simp
  · have h := load_rows_fields s (some (highlightStop s.selected_rows))
    exact ⟨h.1, h.2.1, h.2.2.1, h.2.2.2.1, h.2.2.2.2.1, h.2.2.2.2.2.1,
      h.2.2.2.2.2.2.1, h.2.2.2.2.2.2.2.1, h.2.2.2.2.2.2.2.2.1⟩

/-- `_highlight_rows` never touches the history stack. -/
theorem highlight_rows_histories (c : Bool) (s : ViewState) :
    (highlight_rows c s).histories = s.histories := by
  unfold highlight_rows
  dsimp only
  split
  · rfl
  · split <;> exact (load_rows_fields _ _).2.2.2.2.2.2.2.1

/-- Reducing `_undo` on a state whose stack is known to be non-empty. -/
theorem undo_cons (s : ViewState) (hd : History) (tl : List History)
    (h : s.histories = hd :: tl) :
    undo s =
      (setup_table false { s with
        df := hd.df
        filename := hd.filename
        loaded_rows := hd.loaded_rows
        sorted_columns := hd.sorted_columns
        selected_rows := hd.selected_rows
        visible_rows := hd.visible_rows
        fixed_rows := hd.fixed_rows
        fixed_columns := hd.fixed_columns
        cursor_coordinate := hd.cursor_coordinate
        histories := tl },
       ["Reverted: " ++ hd.description]) := by
  cases s
  subst h
  rfl

/-- Every operation either leaves the history stack untouched or pushes
exactly one entry, and that entry is the snapshot of the pre-operation
state. -/
theorem applyOp_histories (op : Op) (s : ViewState) :
    (applyOp op s).1.histories = s.histories ∨
    ∃ d, (applyOp op s).1.histories = snapshotOf d s :: s.histories := by
  cases op with
  | opFreeze fr fc =>
    right
    refine ⟨"Pinned rows and columns", ?_⟩
    simp only [applyOp, do_freeze, add_history]
    split <;> split <;> rfl
  | opDeleteColumn =>
    simp only [applyOp, delete_column, add_history]
    split
    · left; rfl
    · right
      refine ⟨"Removed column " ++ s.df.columns.getD s.cursor_coordinate.2 "", ?_⟩
      split <;> rfl
  | opDeleteRow =>
    right
    simp only [applyOp, delete_row, add_history]
    refine ⟨if s.selected_rows.count true > 0 then "Deleted selected rows"
      else "Deleted row", ?_⟩
    rw [(setup_table_fields _).2.2.2.2.2.2.2.1]
  | opMoveColumn left =>
    simp only [applyOp, move_column, add_history]
    split
    · exact Or.inl rfl
    · split
      · exact Or.inl rfl
      · exact Or.inr ⟨"Moved column", rfl⟩
  | opMoveRow up =>
    simp only [applyOp, move_row, add_history]
    split
    · exact Or.inl rfl
    · split
      · exact Or.inl rfl
      · exact Or.inr ⟨"Moved row", rfl⟩
  | opSort descending =>
    simp only [applyOp, sort_by_column, add_history]
    split
    · exact Or.inl rfl
    · split
      · exact Or.inl rfl
      · right
        refine ⟨"Sorted on column " ++ s.df.columns.getD s.cursor_coordinate.2 "", ?_⟩
        rw [(setup_table_fields _).2.2.2.2.2.2.2.1]
  | opEditCell v =>
    simp only [applyOp, edit_cell, add_history]
    split
    · exact Or.inl rfl
    · split <;> exact Or.inr ⟨"Edited cell", rfl⟩
  | opSearch term =>
    simp only [applyOp, search_single_column, add_history]
    split
    · exact Or.inl rfl
    · split
      · exact Or.inl rfl
      · split
        · exact Or.inl rfl
        · right
          refine ⟨"Searched and highlighted " ++ term, ?_⟩
          rw [highlight_rows_histories]
  | opToggleSelected current =>
    right
    simp only [applyOp, toggle_selected_rows, add_history]
    refine ⟨"Toggled row selection", ?_⟩
    split <;> rw [highlight_rows_histories]
  | opClearSelected =>
    simp only [applyOp, clear_selected_rows, add_history]
    split
    · exact Or.inl rfl
    · right
      refine ⟨"Cleared all selected rows", ?_⟩
      rw [highlight_rows_histories]
  | opFilterSelected =>
    simp only [applyOp, filter_selected_rows, add_history]
    split
    · exact Or.inl rfl
    · right
      refine ⟨"Filtered to selected rows", ?_⟩
      rw [(setup_table_fields _).2.2.2.2.2.2.2.1]
  | opFilterExpr p =>
    simp only [applyOp, do_filter, add_history]
    split
    · exact Or.inl rfl
    · right
      refine ⟨"Filtered by expression", ?_⟩
      rw [(setup_table_fields _).2.2.2.2.2.2.2.1]

/-- C1: every mutating operation pushes (at most) the snapshot of the
pre-operation state; whenever an operation has pushed such an entry,
`undo` restores a state that agrees with the pre-operation state on
dataset contents, sort keys, selection, visibility, freeze panes and
cursor; and `undo` on an empty stack reports "no actions to undo" and
changes nothing. -/
theorem C1_undo_exactness :
    (∀ (op : Op) (s : ViewState),
        (applyOp op s).1.histories = s.histories ∨
        ∃ d, (applyOp op s).1.histories = snapshotOf d s :: s.histories) ∧
    (∀ (op : Op) (s : ViewState) (d : String),
        (applyOp op s).1.histories = snapshotOf d s :: s.histories →
        agreeState (undo (applyOp op s).1).1 s) ∧
    (∀ s : ViewState, s.histories = [] → undo s = (s, ["No actions to undo"])) := by
  refine ⟨applyOp_histories, ?_, ?_⟩
  · intro op s d h
    rw [undo_cons _ _ _ h]
    dsimp only [snapshotOf]
    have hf := setup_table_fields ({ (applyOp op s).1 with
      df := s.df
      filename := s.filename
      loaded_rows := s.loaded_rows
      sorted_columns := s.sorted_columns
      selected_rows := s.selected_rows
      visible_rows := s.visible_rows
      fixed_rows := s.fixed_rows
      fixed_columns := s.fixed_columns
      cursor_coordinate := s.cursor_coordinate
      histories := s.histories })
    exact ⟨hf.1, hf.2.1, hf.2.2.1, hf.2.2.2.1, hf.2.2.2.2.1, hf.2.2.2.2.2.1,
      hf.2.2.2.2.2.2.1⟩
  · intro s h
    cases s
    subst h
    rfl

/-- Witness for C1 at a concrete operation and state. -/
theorem C1_undo_exactness_witness :
    agreeState (undo (applyOp (.opToggleSelected true) wState).1).1 wState ∧
    undo wState = (wState, ["No actions to undo"]) :=
  ⟨C1_undo_exactness.2.1 (.opToggleSelected true) wState "Toggled row selection"
      (by decide),
   C1_undo_exactness.2.2 wState rfl⟩

/-- C2: filtering to the selected rows shrinks the dataframe and the
selection bitmap to the surviving row count but leaves the visibility
bitmap at its old length, so `len(selected) == len(visible) == row_count`
fails on a reachable state. -/
theorem C2_bitmap_invariant_violation :
    (applyOp .opFilterSelected stC2).1.df.rows.length = 1 ∧
    (applyOp .opFilterSelected stC2).1.selected_rows.length = 1 ∧
    (applyOp .opFilterSelected stC2).1.visible_rows.length = 2 := by decide

/-- C4 counterexample: editing a cell with a string that fails integer
conversion still grows the history stack — the history entry is pushed
before the conversion is attempted. -/
theorem C4_validation_counterexample :
    (applyOp (.opEditCell "abc") stC2).1.histories ≠ stC2.histories ∧
    convertValue .dInt "abc" = none := by decide

/-- C4 amended: every mutation operation other than cell edit validates
before pushing history — the sort, clear-selection, filter-to-selected,
move-row (both directions), move-column (both directions),
delete-column, filter and search flows all return the state unchanged
(history included) on a validation failure; the edit-cell flow passes
its range check but pushes its history entry before conversion, so a
failed conversion leaves everything unchanged except that one extra
entry (the snapshot of the pre-operation state). -/
theorem C4_validation_amended :
    (∀ (s : ViewState) (v : String),
        display_rid s s.cursor_coordinate.1 < s.df.rows.length →
        s.cursor_coordinate.2 < s.df.columns.length →
        convertValue (s.df.dtypes.getD s.cursor_coordinate.2 .dStr) v = none →
        edit_cell v s = (add_history "Edited cell" s, ["Failed to convert"])) ∧
    (∀ (s : ViewState) (d : Bool),
        s.cursor_coordinate.2 < s.df.columns.length →
        lookupFlag (s.df.columns.getD s.cursor_coordinate.2 "") s.sorted_columns =
          some d →
        sort_by_column d s = (s, ["Already sorted"])) ∧
    (∀ s : ViewState, s.selected_rows.count true = 0 →
        clear_selected_rows s = (s, ["No rows selected to clear"])) ∧
    (∀ s : ViewState, s.selected_rows.count true = 0 →
        filter_selected_rows s = (s, ["No rows selected to filter"])) ∧
    (∀ s : ViewState, s.cursor_coordinate.1 = 0 →
        move_row true s = (s, ["Cannot move row up"])) ∧
    (∀ (s : ViewState) (p : Row → Bool),
        (List.range s.df.rows.length).filter
          (fun i => s.visible_rows.getD i true && p (s.df.rows.getD i [])) = [] →
        do_filter p s = (s, ["No rows match the expression"])) ∧
    (∀ s : ViewState, s.cursor_coordinate.2 = 0 →
        move_column true s = (s, ["Cannot move column left"])) ∧
    (∀ s : ViewState, s.cursor_coordinate.2 + 1 ≥ s.df.columns.length →
        move_column false s = (s, ["Cannot move column right"])) ∧
    (∀ s : ViewState, s.cursor_coordinate.1 + 1 ≥ num_display_rows s →
        move_row false s = (s, ["Cannot move row down"])) ∧
    (∀ s : ViewState, s.cursor_coordinate.2 ≥ s.df.columns.length →
        delete_column s = (s, [])) ∧
    (∀ (s : ViewState) (d : Bool),
        s.cursor_coordinate.2 ≥ s.df.columns.length →
        sort_by_column d s = (s, [])) ∧
    (∀ (s : ViewState) (v : String),
        display_rid s s.cursor_coordinate.1 ≥ s.df.rows.length ∨
          s.cursor_coordinate.2 ≥ s.df.columns.length →
        edit_cell v s = (s, [])) ∧
    (∀ (s : ViewState) (term : String),
        s.cursor_coordinate.2 ≥ s.df.columns.length →
        search_single_column term s = (s, ["Invalid column selected"])) ∧
    (∀ (s : ViewState) (term : String),
        s.cursor_coordinate.2 < s.df.columns.length →
        searchPred (s.df.dtypes.getD s.cursor_coordinate.2 .dStr) term = none →
        search_single_column term s = (s, ["Search not supported"])) ∧
    (∀ (s : ViewState) (term : String) (p : Cell → Bool),
        s.cursor_coordinate.2 < s.df.columns.length →
        searchPred (s.df.dtypes.getD s.cursor_coordinate.2 .dStr) term = some p →
        (List.range s.df.rows.length).filter
          (fun i => s.visible_rows.getD i true &&
            p ((s.df.rows.getD i []).getD s.cursor_coordinate.2 none)) = [] →
        search_single_column term s = (s, ["No matches found"])) := by
  refine ⟨?_, ?_, ?_, ?_, ?_, ?_, ?_, ?_, ?_, ?_, ?_, ?_, ?_, ?_, ?_⟩
  · intro s v h1 h2 h3
    simp only [edit_cell]
    rw [if_neg (by omega)]
    have h4 : convertValue
        ((add_history "Edited cell" s).df.dtypes.getD s.cursor_coordinate.2 .dStr)
        v = none := h3
    simp only [h4]
  · intro s d h1 h2
    simp only [sort_by_column]
    rw [if_neg (by omega)]
    simp only [h2, if_pos]
  · intro s h
    simp only [clear_selected_rows]
    rw [if_pos h]
  · intro s h
    simp only [filter_selected_rows]
    rw [if_pos h]
  · intro s h
    simp only [move_row]
    rw [if_pos ⟨trivial, h⟩]
  · intro s p h
    simp only [do_filter]
    rw [h]
    rfl
  · intro s h
    simp only [move_column]
    rw [if_pos ⟨trivial, h⟩]
  · intro s h
    simp only [move_column]
    rw [if_neg (fun hc => absurd hc.1 (by simp))]
    rw [if_pos ⟨by simp, h⟩]
  · intro s h
    simp only [move_row]
    rw [if_neg (fun hc => absurd hc.1 (by simp))]
    rw [if_pos ⟨by simp, h⟩]
  · intro s h
    simp only [delete_column]
    rw [if_pos h]
  · intro s d h
    simp only [sort_by_column]
    rw [if_pos h]
  · intro s v h
    simp only [edit_cell]
    rw [if_pos h]
  · intro s term h
    simp only [search_single_column]
    rw [if_pos h]
  · intro s term h1 h2
    simp only [search_single_column]
    rw [if_neg (by omega), h2]
  · intro s term p h1 h2 h3
    simp only [search_single_column]
    rw [if_neg (by omega), h2]
    simp only [h3]
    rfl

/-- Witness for C4 amended at concrete inputs. -/
theorem C4_validation_amended_witness :
    edit_cell "abc" stC2 = (add_history "Edited cell" stC2, ["Failed to convert"]) ∧
    clear_selected_rows wState = (wState, ["No rows selected to clear"]) ∧
    move_column true stC2 = (stC2, ["Cannot move column left"]) ∧
    search_single_column "abc" stC2 = (stC2, ["Search not supported"]) :=
  ⟨C4_validation_amended.1 stC2 "abc" (by decide) (by decide) (by decide),
   C4_validation_amended.2.2.1 wState (by decide),
   C4_validation_amended.2.2.2.2.2.2.1 stC2 (by decide),
   C4_validation_amended.2.2.2.2.2.2.2.2.2.2.2.2.2.1 stC2 "abc" (by decide) rfl⟩

/-- `_load_rows` never decreases the pagination cursor. -/
theorem load_rows_mono (s : ViewState) (t : Option Nat) :
    s.loaded_rows ≤ (load_rows s t).1.loaded_rows := by
  simp only [load_rows]
  try dsimp only
  split
  · exact Nat.le_refl _
  · rename_i hs
    try dsimp only
    omega

/-- The rows materialized by one `_load_rows` call are exactly the
visible rows of the newly loaded index interval. -/
theorem load_rows_mem (s : ViewState) (t : Option Nat) (i : Nat) :
    i ∈ (load_rows s t).2 ↔
      s.loaded_rows ≤ i ∧ i < (load_rows s t).1.loaded_rows ∧
        s.visible_rows.getD i true = true := by
  simp only [load_rows]
  try dsimp only
  split
  · rename_i hs
    simp only [List.not_mem_nil, false_iff]
    omega
  · rename_i hs
    try dsimp only
    rw [List.mem_filter, List.mem_range'_1]
    constructor
    · rintro ⟨⟨hl, hu⟩, hv⟩
      exact ⟨hl, by omega, hv⟩
    · rintro ⟨hl, hu, hv⟩
      exact ⟨⟨hl, by omega⟩, hv⟩

/-- C7: `ensure_loaded(target)` is a no-op when the target is at most the
loaded count; otherwise it sets the loaded count to
`min(target, row_count)`; it never decreases the loaded count; it
materializes exactly the visible rows of the newly loaded interval
(hidden rows are skipped but still counted); and two successive calls
never materialize the same row twice. -/
theorem C7_ensure_loaded_spec :
    (∀ (s : ViewState) (t : Nat), t ≤ s.loaded_rows →
        load_rows s (some t) = (s, [])) ∧
    (∀ (s : ViewState) (t : Nat), s.loaded_rows ≤ s.df.rows.length →
        s.loaded_rows < t →
        (load_rows s (some t)).1.loaded_rows = min t s.df.rows.length) ∧
    (∀ (s : ViewState) (t : Option Nat),
        s.loaded_rows ≤ (load_rows s t).1.loaded_rows) ∧
    (∀ (s : ViewState) (t : Option Nat) (i : Nat),
        i ∈ (load_rows s t).2 ↔
          s.loaded_rows ≤ i ∧ i < (load_rows s t).1.loaded_rows ∧
            s.visible_rows.getD i true = true) ∧
    (∀ (s : ViewState) (t u : Option Nat),
        List.Disjoint (load_rows s t).2 (load_rows (load_rows s t).1 u).2) := by
  refine ⟨?_, ?_, load_rows_mono, load_rows_mem, ?_⟩
  · intro s t h
    simp only [load_rows]
    try dsimp only
    rw [if_pos (by split <;> omega)]
  · intro s t h1 h2
    simp only [load_rows]
    try dsimp only
    split <;> rename_i hs <;> split <;> rename_i hs2 <;> dsimp only <;> omega
  · intro s t u i h1 h2
    rw [load_rows_mem] at h1 h2
    have h3 := (load_rows_fields s t).2.2.2.2.2.2.2.2
    omega

/-- Witness for C7 at concrete inputs. -/
theorem C7_ensure_loaded_spec_witness :
    load_rows wState (some 1) = (wState, []) ∧
    (load_rows { wState with loaded_rows := 0 } (some 5)).1.loaded_rows = min 5 2 :=
  ⟨C7_ensure_loaded_spec.1 wState 1 (by decide),
   C7_ensure_loaded_spec.2.1 { wState with loaded_rows := 0 } 5 (by decide)
     (by decide)⟩

/-- C8: on an Integer column, searching for a numeric term selects
exactly the visible rows whose cell equals the parsed integer (not a
substring match); the matches are added to the selection by union and
the visibility bitmap is untouched. -/
theorem C8_search_exact_match :
    ∀ (s : ViewState) (term : String) (k : Int),
      s.cursor_coordinate.2 < s.df.columns.length →
      s.df.dtypes.getD s.cursor_coordinate.2 .dStr = .dInt →
      toLowerStr term ≠ "null" →
      strToInt? term = some k →
      (∀ i, i ∈ (List.range s.df.rows.length).filter
            (fun j => s.visible_rows.getD j true &&
              decide ((s.df.rows.getD j []).getD s.cursor_coordinate.2 none =
                some (.vInt k))) ↔
          i < s.df.rows.length ∧ s.visible_rows.getD i true = true ∧
            (s.df.rows.getD i []).getD s.cursor_coordinate.2 none =
              some (.vInt k)) ∧
      ((List.range s.df.rows.length).filter
            (fun j => s.visible_rows.getD j true &&
              decide ((s.df.rows.getD j []).getD s.cursor_coordinate.2 none =
                some (.vInt k))) ≠ [] →
        (search_single_column term s).1.visible_rows = s.visible_rows ∧
        (search_single_column term s).1.selected_rows =
          s.selected_rows.mapIdx (fun i b => b ||
            ((List.range s.df.rows.length).filter
              (fun j => s.visible_rows.getD j true &&
                decide ((s.df.rows.getD j []).getD s.cursor_coordinate.2 none =
                  some (.vInt k)))).contains i)) := by
  intro s term k h1 h2 h3 h4
  constructor
  · intro i
    rw [List.mem_filter, List.mem_range]
    simp only [Bool.and_eq_true, decide_eq_true_eq]
    try tauto
  · intro hne
    have hp : searchPred (s.df.dtypes.getD s.cursor_coordinate.2 .dStr) term =
        some (fun c => decide (c = some (.vInt k))) := by
      rw [h2]
      simp only [searchPred]
      rw [if_neg h3, h4]
      rfl
    simp only [search_single_column]
    rw [if_neg (by omega), hp]
    dsimp only
    rw [if_neg (by simpa [List.isEmpty_iff] using hne)]
    dsimp only
    refine ⟨?_, ?_⟩
    · exact (highlight_rows_fields _).2.2.2.1
    · exact (highlight_rows_fields _).2.2.1

/-- Witness for C8: searching "42" selects the row holding 42 but not
the row holding 142, and leaves visibility untouched. -/
theorem C8_search_exact_match_witness :
    (search_single_column "42" stC8).1.selected_rows = [true, false, false] ∧
    (search_single_column "42" stC8).1.visible_rows = stC8.visible_rows := by
  have h := C8_search_exact_match stC8 "42" 42 (by decide) (by decide) (by decide)
    (by decide)
  obtain ⟨hv, hsel⟩ := h.2 (by decide)
  refine ⟨?_, hv⟩
  rw [hsel]
  decide

/-- Core case of the swap characterization: the five-slice concatenation
of `_move_row` with `i < j` swaps positions `i` and `j`. -/
theorem swapRowsConcat_core (xs : List α) (i j : Nat) (hij : i < j)
    (hj : j < xs.length) : swapRowsConcat xs i j = listSwap xs i j := by
  have hi : i < xs.length := Nat.lt_trans hij hj
  have hgi : xs.get? i = some xs[i] := by
    rw [List.get?_eq_getElem?, List.getElem?_eq_getElem hi]
  have hgj : xs.get? j = some xs[j] := by
    rw [List.get?_eq_getElem?, List.getElem?_eq_getElem hj]
  rw [listSwap, hgi, hgj]
  dsimp only
  rw [List.set_eq_take_cons_drop _ hi]
  have hlen : j < (xs.take i ++ xs[j] :: xs.drop (i + 1)).length := by
    simp [List.length_take, List.length_drop]
    omega
  rw [List.set_eq_take_cons_drop _ hlen]
  rw [List.take_append_eq_append_take, List.drop_append_eq_append_drop]
  have hti : (xs.take i).length = i := by simp; omega
  rw [hti]
  rw [List.take_of_length_le (by omega : (xs.take i).length ≤ j)]
  rw [List.drop_eq_nil_of_le (by omega : (xs.take i).length ≤ j + 1)]
  rw [show j - i = (j - i - 1) + 1 from by omega]
  rw [List.take_succ_cons]
  rw [show j + 1 - i = (j - i - 1) + 2 from by omega]
  rw [show ((j : Nat) - i - 1) + 2 = ((j - i - 1) + 1) + 1 from rfl]
  rw [List.drop_succ_cons]
  rw [List.drop_drop]
  rw [show i + 1 + (j - i - 1 + 1) = j + 1 from by omega]
  have t1 : (xs.drop j).take 1 = [xs[j]] := by
    rw [List.drop_eq_getElem_cons hj]; rfl
  have t2 : (xs.drop i).take 1 = [xs[i]] := by
    rw [List.drop_eq_getElem_cons hi]; rfl
  rw [swapRowsConcat]
  rw [Nat.min_eq_left (Nat.le_of_lt hij), Nat.max_eq_right (Nat.le_of_lt hij)]
  rw [t1, t2]
  simp [List.append_assoc]

/-- The five-slice concatenation of `_move_row` swaps exactly the two
addressed positions. -/
theorem swapRowsConcat_eq_listSwap (xs : List α) (i j : Nat) (hne : i ≠ j)
    (hi : i < xs.length) (hj : j < xs.length) :
    swapRowsConcat xs i j = listSwap xs i j := by
  rcases Nat.lt_or_ge i j with h | h
  · exact swapRowsConcat_core xs i j h hj
  · have hji : j < i := by omega
    have hcore := swapRowsConcat_core xs j i hji hi
    have hsym : swapRowsConcat xs i j = swapRowsConcat xs j i := by
      rw [swapRowsConcat, swapRowsConcat, Nat.min_comm, Nat.max_comm]
    rw [hsym, hcore]
    have hgi : xs.get? i = some xs[i] := by
      rw [List.get?_eq_getElem?, List.getElem?_eq_getElem hi]
    have hgj : xs.get? j = some xs[j] := by
      rw [List.get?_eq_getElem?, List.getElem?_eq_getElem hj]
    rw [listSwap, listSwap, hgi, hgj]
    dsimp only
    exact List.set_comm _ _ _ (Ne.symm hne)

/-- C10: a valid row move swaps the two addressed dataframe rows but
leaves the selection and visibility bitmaps entirely unchanged (their
bits are not remapped along with the rows, unlike a sort). -/
theorem C10_move_row_frame :
    ∀ (s : ViewState) (up : Bool),
      (up = true → s.cursor_coordinate.1 ≠ 0) →
      (up = false → s.cursor_coordinate.1 + 1 < num_display_rows s) →
      (move_row up s).1.selected_rows = s.selected_rows ∧
      (move_row up s).1.visible_rows = s.visible_rows ∧
      (move_row up s).1.df.rows =
        swapRowsConcat s.df.rows (display_rid s s.cursor_coordinate.1)
          (display_rid s (if up then s.cursor_coordinate.1 - 1
                          else s.cursor_coordinate.1 + 1)) ∧
      (display_rid s s.cursor_coordinate.1 ≠
          display_rid s (if up then s.cursor_coordinate.1 - 1
                         else s.cursor_coordinate.1 + 1) →
        display_rid s s.cursor_coordinate.1 < s.df.rows.length →
        display_rid s (if up then s.cursor_coordinate.1 - 1
                       else s.cursor_coordinate.1 + 1) < s.df.rows.length →
        (move_row up s).1.df.rows =
          listSwap s.df.rows (display_rid s s.cursor_coordinate.1)
            (display_rid s (if up then s.cursor_coordinate.1 - 1
                            else s.cursor_coordinate.1 + 1))) := by
  intro s up hup hdown
  cases up with
  | true =>
    have hv := hup rfl
    simp only [move_row]
    rw [if_neg (fun hc => hv hc.2)]
    rw [if_neg (fun hc => hc.1 trivial)]
    refine ⟨rfl, rfl, rfl, ?_⟩
    intro hne h1 h2
    exact swapRowsConcat_eq_listSwap _ _ _ hne h1 h2
  | false =>
    have hv := hdown rfl
    simp only [move_row]
    rw [if_neg (fun hc => by exact absurd hc.1 (by simp))]
    rw [if_neg (fun hc => absurd hc.2 (by omega))]
    refine ⟨rfl, rfl, rfl, ?_⟩
    intro hne h1 h2
    exact swapRowsConcat_eq_listSwap _ _ _ hne h1 h2

/-- Witness for C10: moving display row 1 up swaps dataframe rows 1 and 0
and leaves both bitmaps unchanged. -/
theorem C10_move_row_frame_witness :
    (move_row true stC10).1.selected_rows = stC10.selected_rows ∧
    (move_row true stC10).1.visible_rows = stC10.visible_rows ∧
    (move_row true stC10).1.df.rows =
      listSwap stC10.df.rows (display_rid stC10 1) (display_rid stC10 0) := by
  have h := C10_move_row_frame stC10 true (by decide) (by decide)
  exact ⟨h.1, h.2.1, h.2.2.2 (by decide) (by decide) (by decide)⟩

/-- Peel the first index off a map over `List.range`. -/
theorem range_succ_map (f : Nat → α) (n : Nat) :
    (List.range (n + 1)).map f = f 0 :: (List.range n).map (fun i => f (i + 1)) := by
  rw [List.range_succ_eq_map, List.map_cons, List.map_map]
  rfl

/-- Reading every position of a list back in order yields the list. -/
theorem getD_range_self (xs : List α) (d : α) :
    (List.range xs.length).map (fun i => xs.getD i d) = xs := by
  induction xs with
  | nil => rfl
  | cons x t ih =>
    rw [List.length_cons, range_succ_map]
    simp only [List.getD_cons_zero, List.getD_cons_succ]
    rw [ih]

/-- The delete-row keep-mask with a selection present is the pointwise
negation of the selection bitmap. -/
theorem keep_eq_map_not (sel : List Bool) :
    (List.range sel.length).map (fun i => !(sel.getD i false)) =
      sel.map (fun b => !b) := by
  have h := getD_range_self (sel.map (fun b => !b)) false
  rw [List.length_map] at h
  rw [← h]
  refine List.map_congr_left ?_
  intro i hi
  rw [List.mem_range] at hi
  simp [List.getD_eq_getElem?_getD, List.getElem?_map, List.getElem?_eq_getElem hi]

/-- One step of `maskFilter`. -/
theorem maskFilter_cons (m : Bool) (ms : List Bool) (x : α) (xs : List α) :
    maskFilter (m :: ms) (x :: xs) =
      (if m then [x] else []) ++ maskFilter ms xs := by
  cases m <;> simp [maskFilter]

/-- Filtering a list by the negation of itself keeps only false bits. -/
theorem maskFilter_map_not_self (sel : List Bool) :
    ∀ b ∈ maskFilter (sel.map (fun x => !x)) sel, b = false := by
  induction sel with
  | nil => intro b hb; simp [maskFilter] at hb
  | cons x t ih =>
    intro b hb
    rw [List.map_cons, maskFilter_cons] at hb
    rcases List.mem_append.mp hb with h | h
    · cases x <;> simp_all
    · exact ih b h

/-- Length of a mask filter with matching lengths. -/
theorem maskFilter_length (m : List Bool) (xs : List α)
    (h : m.length = xs.length) : (maskFilter m xs).length = m.count true := by
  induction m generalizing xs with
  | nil => simp [maskFilter]
  | cons b t ih =>
    cases xs with
    | nil => simp at h
    | cons x xs =>
      rw [maskFilter_cons]
      rw [List.length_append, ih xs (by simpa using h)]
      cases b <;> simp [List.count_cons] <;> omega

/-- Counting trues after negation counts the falses. -/
theorem count_true_map_not (sel : List Bool) :
    (sel.map (fun b => !b)).count true = sel.length - sel.count true := by
  induction sel with
  | nil => rfl
  | cons b t ih =>
    have hc : t.count true ≤ t.length := List.count_le_length _ _
    cases b <;> simp [List.count_cons, ih] <;> omega

/-- A keep-everything mask keeps everything. -/
theorem maskFilter_replicate_true (xs : List α) :
    maskFilter (List.replicate xs.length true) xs = xs := by
  induction xs with
  | nil => rfl
  | cons x t ih => rw [List.length_cons, List.replicate_succ, maskFilter_cons, ih]; rfl

/-- The delete-row keep-mask with no selection removes exactly the
cursor row. -/
theorem maskFilter_ne_eraseIdx (xs : List α) (r : Nat) :
    maskFilter ((List.range xs.length).map (fun i => decide (i ≠ r))) xs =
      xs.eraseIdx r := by
  induction xs generalizing r with
  | nil => rfl
  | cons x t ih =>
    rw [List.length_cons, range_succ_map]
    cases r with
    | zero =>
      rw [show (decide ((0 : Nat) ≠ 0)) = false from by decide]
      rw [maskFilter_cons]
      have he : (List.range t.length).map (fun i => decide (i + 1 ≠ 0)) =
          List.replicate t.length true := by
        rw [show (fun i : Nat => decide (i + 1 ≠ 0)) = (fun _ : Nat => true) from
          funext (fun i => by simp)]
        rw [List.map_const', List.length_range]
      rw [he, maskFilter_replicate_true]
      rfl
    | succ r =>
      rw [show (decide ((0 : Nat) ≠ r + 1)) = true from by simp]
      rw [maskFilter_cons]
      have he : (List.range t.length).map (fun i => decide (i + 1 ≠ r + 1)) =
          (List.range t.length).map (fun i => decide (i ≠ r)) := by
        refine List.map_congr_left (fun i _ => ?_)
        simp
      rw [he, ih r]
      rfl

/-- C6 amended: deleting with 3 of 10 rows selected removes exactly the
selected rows; afterwards `selected_rows` has length 7 with every bit
false, while `visible_rows` has length 7 and keeps the surviving rows'
previous visibility flags (it is compacted, not cleared); with no
selection, exactly the cursor row is removed. -/
theorem C6_delete_row_amended :
    (∀ s : ViewState,
        s.selected_rows.length = s.df.rows.length →
        s.visible_rows.length = s.df.rows.length →
        s.selected_rows.count true = 3 →
        s.df.rows.length = 10 →
        (delete_row s).1.df.rows =
          maskFilter (s.selected_rows.map (fun b => !b)) s.df.rows ∧
        (delete_row s).1.df.rows.length = 7 ∧
        (delete_row s).1.selected_rows.length = 7 ∧
        (∀ b ∈ (delete_row s).1.selected_rows, b = false) ∧
        (delete_row s).1.visible_rows =
          maskFilter (s.selected_rows.map (fun b => !b)) s.visible_rows ∧
        (delete_row s).1.visible_rows.length = 7) ∧
    (∀ s : ViewState, s.selected_rows.count true = 0 →
        (delete_row s).1.df.rows =
          s.df.rows.eraseIdx (display_rid s s.cursor_coordinate.1)) := by
  constructor
  · intro s h1 h2 h3 h4
    have hpos : s.selected_rows.count true > 0 := by omega
    have hkeep : (List.range s.df.rows.length).map
        (fun i => !(s.selected_rows.getD i false)) =
        s.selected_rows.map (fun b => !b) := by
      rw [← h1]
      exact keep_eq_map_not s.selected_rows
    have hdf : (delete_row s).1.df.rows =
        maskFilter (s.selected_rows.map (fun b => !b)) s.df.rows := by
      simp only [delete_row]
      try dsimp only
      rw [if_pos hpos, (setup_table_fields _).1]
      try dsimp only
      rw [hkeep]
      rw [if_pos hpos]
      rfl
    have hsel : (delete_row s).1.selected_rows =
        maskFilter (s.selected_rows.map (fun b => !b)) s.selected_rows := by
      simp only [delete_row]
      try dsimp only
      rw [if_pos hpos, (setup_table_fields _).2.2.1]
      try dsimp only
      rw [hkeep]
      rw [if_pos hpos]
      rfl
    have hvis : (delete_row s).1.visible_rows =
        maskFilter (s.selected_rows.map (fun b => !b)) s.visible_rows := by
      simp only [delete_row]
      try dsimp only
      rw [if_pos hpos, (setup_table_fields _).2.2.2.1]
      try dsimp only
      rw [hkeep]
      rw [if_pos hpos]
      rfl
    have hcnt : (s.selected_rows.map (fun b => !b)).count true = 7 := by
      rw [count_true_map_not, h1, h4, h3]
    refine ⟨hdf, ?_, ?_, ?_, hvis, ?_⟩
    · rw [hdf, maskFilter_length _ _ (by rw [List.length_map, h1]), hcnt]
    · rw [hsel, maskFilter_length _ _ (by rw [List.length_map]), hcnt]
    · intro b hb
      rw [hsel] at hb
      exact maskFilter_map_not_self s.selected_rows b hb
    · rw [hvis, maskFilter_length _ _ (by rw [List.length_map, h1, h2]), hcnt]
  · intro s h0
    have hneg : ¬(s.selected_rows.count true > 0) := by omega
    simp only [delete_row]
    try dsimp only
    rw [if_neg hneg, (setup_table_fields _).1]
    try dsimp only
    rw [if_neg hneg]
    show maskFilter _ s.df.rows = _
    exact maskFilter_ne_eraseIdx s.df.rows (display_rid s s.cursor_coordinate.1)

/-- C6 counterexample: after deleting the 3 selected rows of 10 the
visibility bitmap has length 7 but every bit is true (the survivors keep
their flags), not false as the claim states. -/
theorem C6_delete_row_counterexample :
    (delete_row stC6).1.visible_rows = List.replicate 7 true ∧
    (delete_row stC6).1.visible_rows ≠ List.replicate 7 false := by decide

/-- Witness for C6 amended at concrete inputs. -/
theorem C6_delete_row_amended_witness :
    ((delete_row stC6).1.df.rows.length = 7 ∧
      (delete_row stC6).1.selected_rows.length = 7 ∧
      (delete_row stC6).1.visible_rows.length = 7) ∧
    (delete_row stC8).1.df.rows =
      stC8.df.rows.eraseIdx (display_rid stC8 stC8.cursor_coordinate.1) := by
  have h := C6_delete_row_amended.1 stC6 (by decide) (by decide) (by decide)
    (by decide)
  exact ⟨⟨h.2.1, h.2.2.1, h.2.2.2.2.2⟩, C6_delete_row_amended.2 stC8 (by decide)⟩

/-- The old-to-new order read back from the tag column really is a
permutation of the row positions. -/
theorem sortPerm_perm (cols : List String) (keys : List (String × Bool))
    (rows : List Row) :
    (sortPerm cols keys rows).Perm (List.range rows.length) := by
  have h1 := List.perm_insertionSort
    (fun p q : Nat × Row => rowLE cols keys p.2 q.2 = true) rows.enum
  have h2 := h1.map Prod.fst
  rwa [List.enum_map_fst] at h2

/-- Field characterization of a committing `_sort_by_column` call. -/
theorem sort_by_column_commit (s : ViewState) (descending : Bool)
    (hcol : s.cursor_coordinate.2 < s.df.columns.length)
    (hne : lookupFlag (s.df.columns.getD s.cursor_coordinate.2 "")
      s.sorted_columns ≠ some descending) :
    (sort_by_column descending s).1.sorted_columns = sortKeysAfter s descending ∧
    (sort_by_column descending s).1.df.columns = s.df.columns ∧
    (sort_by_column descending s).1.df.dtypes = s.df.dtypes ∧
    (sort_by_column descending s).1.df.rows =
      (sortPerm s.df.columns (sortKeysAfter s descending) s.df.rows).map
        (fun i => s.df.rows.getD i []) ∧
    (sort_by_column descending s).1.selected_rows =
      (sortPerm s.df.columns (sortKeysAfter s descending) s.df.rows).map
        (fun i => s.selected_rows.getD i false) ∧
    (sort_by_column descending s).1.visible_rows =
      (sortPerm s.df.columns (sortKeysAfter s descending) s.df.rows).map
        (fun i => s.visible_rows.getD i true) ∧
    (sort_by_column descending s).1.cursor_coordinate =
      (0, s.cursor_coordinate.2) := by
  simp only [sort_by_column]
  rw [if_neg (by omega), if_neg hne]
  try dsimp only
  refine ⟨?_, ?_, ?_, ?_, ?_, ?_, rfl⟩
  · rw [show ∀ x : ViewState, ({ x with
      cursor_coordinate := (0, s.cursor_coordinate.2) } : ViewState).sorted_columns
        = x.sorted_columns from fun x => rfl]
    rw [(setup_table_fields _).2.1]
    rfl
  · rw [show ∀ x : ViewState, ({ x with
      cursor_coordinate := (0, s.cursor_coordinate.2) } : ViewState).df = x.df
      from fun x => rfl]
    rw [(setup_table_fields _).1]
    rfl
  · rw [show ∀ x : ViewState, ({ x with
      cursor_coordinate := (0, s.cursor_coordinate.2) } : ViewState).df = x.df
      from fun x => rfl]
    rw [(setup_table_fields _).1]
    rfl
  · rw [show ∀ x : ViewState, ({ x with
      cursor_coordinate := (0, s.cursor_coordinate.2) } : ViewState).df = x.df
      from fun x => rfl]
    rw [(setup_table_fields _).1]
    rfl
  · rw [show ∀ x : ViewState, ({ x with
      cursor_coordinate := (0, s.cursor_coordinate.2) } : ViewState).selected_rows
        = x.selected_rows from fun x => rfl]
    rw [(setup_table_fields _).2.2.1]
    rfl
  · rw [show ∀ x : ViewState, ({ x with
      cursor_coordinate := (0, s.cursor_coordinate.2) } : ViewState).visible_rows
        = x.visible_rows from fun x => rfl]
    rw [(setup_table_fields _).2.2.2.1]
    rfl

/-- C3: toggling sort on the cursor column with the same flag warns and
changes nothing; with the opposite flag the key is removed and
re-appended at the end with the new flag; a fresh column is appended;
the sort applies a permutation of the row positions to the dataframe
rows and, in lock-step, to the selection and visibility bitmaps, and
the cursor resets to row 0 of the sorted column. -/
theorem C3_toggle_sort_spec :
    ∀ (s : ViewState) (descending : Bool),
      s.cursor_coordinate.2 < s.df.columns.length →
      ((lookupFlag (s.df.columns.getD s.cursor_coordinate.2 "")
          s.sorted_columns = some descending →
        sort_by_column descending s = (s, ["Already sorted"])) ∧
       (lookupFlag (s.df.columns.getD s.cursor_coordinate.2 "")
          s.sorted_columns ≠ some descending →
        (sort_by_column descending s).1.sorted_columns =
          (if lookupFlag (s.df.columns.getD s.cursor_coordinate.2 "")
              s.sorted_columns = none then
            s.sorted_columns ++
              [(s.df.columns.getD s.cursor_coordinate.2 "", descending)]
          else
            (s.sorted_columns.filter
              (fun p => p.1 ≠ s.df.columns.getD s.cursor_coordinate.2 "")) ++
              [(s.df.columns.getD s.cursor_coordinate.2 "", descending)]) ∧
        (sortPerm s.df.columns (sortKeysAfter s descending) s.df.rows).Perm
          (List.range s.df.rows.length) ∧
        (sort_by_column descending s).1.df.rows =
          (sortPerm s.df.columns (sortKeysAfter s descending) s.df.rows).map
            (fun i => s.df.rows.getD i []) ∧
        (sort_by_column descending s).1.selected_rows =
          (sortPerm s.df.columns (sortKeysAfter s descending) s.df.rows).map
            (fun i => s.selected_rows.getD i false) ∧
        (sort_by_column descending s).1.visible_rows =
          (sortPerm s.df.columns (sortKeysAfter s descending) s.df.rows).map
            (fun i => s.visible_rows.getD i true) ∧
        (sort_by_column descending s).1.cursor_coordinate =
          (0, s.cursor_coordinate.2))) := by
  intro s descending hcol
  constructor
  · intro heq
    simp only [sort_by_column]
    rw [if_neg (by omega), heq]
    simp
  · intro hne
    have h := sort_by_column_commit s descending hcol hne
    exact ⟨h.1, sortPerm_perm _ _ _, h.2.2.2.1, h.2.2.2.2.1, h.2.2.2.2.2.1,
      h.2.2.2.2.2.2⟩

/-- Witness for C3 at concrete inputs: a same-flag toggle is a warned
no-op; an opposite-flag toggle re-appends the key with the new flag and
resets the cursor. -/
theorem C3_toggle_sort_spec_witness :
    sort_by_column false stSortedW = (stSortedW, ["Already sorted"]) ∧
    (sort_by_column true stSortedW).1.sorted_columns = [("a", true)] ∧
    (sort_by_column true stSortedW).1.cursor_coordinate = (0, 0) := by
  have h1 := (C3_toggle_sort_spec stSortedW false (by decide)).1 (by decide)
  have h2 := (C3_toggle_sort_spec stSortedW true (by decide)).2 (by decide)
  refine ⟨h1, ?_, h2.2.2.2.2.2⟩
  rw [h2.1]
  decide

/-- C5: compiling the two specification expressions substitutes the
`$`-references with engine `pl.col(name)` syntax, replaces `&&` with
`) & (`, wraps the result in one outer parenthesis pair, and the
compiled strings are (up to insignificant whitespace) the renderings of
the native expressions "age > 50" and the conjunction of
"first column > 3" and "name == 'Alex'"; the conjunction evaluates as
the boolean AND of its two operand predicates. -/
theorem C5_expression_round_trip :
    parse_filter_expression "$_ > 50" ["age", "name"] 0 =
      .ok ("(" ++ plCol "age" ++ "   >   50)") ∧
    stripSpaces ("(" ++ plCol "age" ++ "   >   50)") =
      stripSpaces (renderTop (.gtE (.col "age") (.litInt 50))) ∧
    parse_filter_expression ("$1 > 3 && $name == " ++ quoteStr "Alex")
        ["age", "name"] 0 =
      .ok ("(" ++ plCol "age" ++ "   >   3   ) & (   " ++ plCol "name" ++
        "   ==   " ++ quoteStr "Alex" ++ ")") ∧
    stripSpaces ("(" ++ plCol "age" ++ "   >   3   ) & (   " ++ plCol "name" ++
        "   ==   " ++ quoteStr "Alex" ++ ")") =
      stripSpaces (renderTop (.andE (.gtE (.col "age") (.litInt 3))
        (.eqE (.col "name") (.litStr "Alex")))) ∧
    (∀ r : String → Cell,
      evalPl (.andE (.gtE (.col "age") (.litInt 3))
          (.eqE (.col "name") (.litStr "Alex"))) r =
        match evalPl (.gtE (.col "age") (.litInt 3)) r,
            evalPl (.eqE (.col "name") (.litStr "Alex")) r with
        | some (.vBool x), some (.vBool y) => some (.vBool (x && y))
        | _, _ => none) :=
  ⟨by rfl, by decide, by rfl, by decide, fun r => rfl⟩

/-- Totality of the value order. -/
theorem valLE_total (a b : Value) : valLE a b = true ∨ valLE b a = true := by
  rcases a with n1 | s1 | b1 <;> rcases b with n2 | s2 | b2 <;>
    simp [valLE, valueRank] <;>
    first
    | omega
    | exact le_total _ _
    | (cases b1 <;> cases b2 <;> simp)

/-- Transitivity of the value order. -/
theorem valLE_trans {a b c : Value} (h1 : valLE a b = true)
    (h2 : valLE b c = true) : valLE a c = true := by
  rcases a with n1 | s1 | b1 <;> rcases b with n2 | s2 | b2 <;>
    rcases c with n3 | s3 | b3 <;> simp_all [valLE, valueRank] <;>
    first
    | omega
    | exact le_trans h1 h2
    | (cases b1 <;> cases b3 <;> simp_all)

/-- Antisymmetry of the value order. -/
theorem valLE_antisymm {a b : Value} (h1 : valLE a b = true)
    (h2 : valLE b a = true) : a = b := by
  rcases a with n1 | s1 | b1 <;> rcases b with n2 | s2 | b2 <;>
    simp_all [valLE, valueRank] <;>
    first
    | omega
    | exact le_antisymm h1 h2
    | exact congrArg String.mk (le_antisymm h1 h2)
    | (cases b1 <;> cases b2 <;> simp_all)

/-- Totality of the nulls-last cell order. -/
theorem cellLE_total (d : Bool) (a b : Cell) :
    cellLE d a b = true ∨ cellLE d b a = true := by
  rcases a with - | x <;> rcases b with - | y <;> simp [cellLE]
  cases d
  · exact valLE_total x y
  · exact valLE_total y x

/-- Transitivity of the nulls-last cell order. -/
theorem cellLE_trans (d : Bool) {a b c : Cell} (h1 : cellLE d a b = true)
    (h2 : cellLE d b c = true) : cellLE d a c = true := by
  rcases a with - | x <;> rcases b with - | y <;> rcases c with - | z <;>
    simp_all [cellLE]
  cases d <;> simp_all
  · exact valLE_trans h1 h2
  · exact valLE_trans h2 h1

/-- Antisymmetry of the nulls-last cell order. -/
theorem cellLE_antisymm (d : Bool) {a b : Cell} (h1 : cellLE d a b = true)
    (h2 : cellLE d b a = true) : a = b := by
  rcases a with - | x <;> rcases b with - | y <;> simp_all [cellLE]
  cases d <;> simp_all
  · exact valLE_antisymm h1 h2
  · exact valLE_antisymm h2 h1

/-- Reflexivity of the multi-key row order. -/
theorem rowLE_refl (cols : List String) (keys : List (String × Bool))
    (r : Row) : rowLE cols keys r r = true := by
  induction keys with
  | nil => rfl
  | cons k ks ih =>
    obtain ⟨c, d⟩ := k
    simp [rowLE, ih]

/-- Totality of the multi-key row order. -/
theorem rowLE_total (cols : List String) (keys : List (String × Bool))
    (r t : Row) :
    rowLE cols keys r t = true ∨ rowLE cols keys t r = true := by
  induction keys with
  | nil => exact Or.inl rfl
  | cons k ks ih =>
    obtain ⟨c, d⟩ := k
    simp only [rowLE]
    by_cases hab : cellOfCol cols r c = cellOfCol cols t c
    · rw [if_pos hab, if_pos hab.symm]
      exact ih
    · rw [if_neg hab, if_neg (fun h => hab h.symm)]
      exact cellLE_total d _ _

/-- Transitivity of the multi-key row order. -/
theorem rowLE_trans (cols : List String) (keys : List (String × Bool))
    {r t u : Row} (h1 : rowLE cols keys r t = true)
    (h2 : rowLE cols keys t u = true) : rowLE cols keys r u = true := by
  induction keys with
  | nil => rfl
  | cons k ks ih =>
    obtain ⟨c, d⟩ := k
    simp only [rowLE] at h1 h2 ⊢
    by_cases hab : cellOfCol cols r c = cellOfCol cols t c <;>
      by_cases hbc : cellOfCol cols t c = cellOfCol cols u c
    · rw [if_pos hab] at h1
      rw [if_pos hbc] at h2
      rw [if_pos (hab.trans hbc)]
      exact ih h1 h2
    · rw [if_pos hab] at h1
      rw [if_neg hbc] at h2
      rw [hab]
      rw [if_neg hbc]
      exact h2
    · rw [if_neg hab] at h1
      rw [if_pos hbc] at h2
      rw [← hbc]
      rw [if_neg hab]
      exact h1
    · rw [if_neg hab] at h1
      rw [if_neg hbc] at h2
      by_cases hac : cellOfCol cols r c = cellOfCol cols u c
      · exfalso
        apply hab
        apply cellLE_antisymm d h1
        rw [← hac] at h2
        exact h2
      · rw [if_neg hac]
        exact cellLE_trans d h1 h2

/-- Ordered insertion commutes with projecting the tag away when the
relation only inspects the projected component. -/
theorem orderedInsert_map_snd {α β : Type} (R : β → β → Prop) [DecidableRel R]
    (a : α × β) (l : List (α × β)) :
    (List.orderedInsert (fun p q => R p.2 q.2) a l).map Prod.snd =
      List.orderedInsert R a.2 (l.map Prod.snd) := by
  induction l with
  | nil => rfl
  | cons b t ih =>
    simp only [List.orderedInsert, List.map_cons]
    by_cases h : R a.2 b.2
    · rw [if_pos h, if_pos h]
      rfl
    · rw [if_neg h, if_neg h, List.map_cons, ih]

/-- The stable sort of tag-extended rows projects to the stable sort of
the rows when the relation only inspects the row component. -/
theorem insertionSort_map_snd {α β : Type} (R : β → β → Prop) [DecidableRel R]
    (l : List (α × β)) :
    (List.insertionSort (fun p q => R p.2 q.2) l).map Prod.snd =
      List.insertionSort R (l.map Prod.snd) := by
  induction l with
  | nil => rfl
  | cons a t ih =>
    simp only [List.insertionSort, List.map_cons]
    rw [orderedInsert_map_snd, ih]

/-- Applying the tag-column permutation to the rows is the stable sort
of the rows themselves. -/
theorem sortRows_eq (cols : List String) (keys : List (String × Bool))
    (rows : List Row) :
    (sortPerm cols keys rows).map (fun i => rows.getD i []) =
      List.insertionSort (fun r t : Row => rowLE cols keys r t = true) rows := by
  unfold sortPerm sortedTagged
  rw [List.map_map]
  have hmem : ∀ p ∈ List.insertionSort
      (fun p q : Nat × Row => rowLE cols keys p.2 q.2 = true) rows.enum,
      ((fun i => rows.getD i []) ∘ Prod.fst) p = Prod.snd p := by
    intro p hp
    have hp2 : p ∈ rows.enum :=
      (List.perm_insertionSort _ rows.enum).mem_iff.mp hp
    have hget := List.mem_enum_iff_getElem?.mp hp2
    simp only [Function.comp]
    rw [List.getD_eq_getElem?_getD, hget]
    rfl
  rw [List.map_congr_left hmem]
  have hs := insertionSort_map_snd (α := Nat) (β := Row)
    (fun r t : Row => rowLE cols keys r t = true) rows.enum
  rw [List.enum_map_snd] at hs
  exact hs

/-- A single-key row comparison on rows whose key cells differ is the
plain cell comparison. -/
theorem rowLE_single_of_ne (cols : List String) (c : String) (d : Bool)
    {r t : Row} (h : cellOfCol cols r c ≠ cellOfCol cols t c) :
    rowLE cols [(c, d)] r t =
      cellLE d (cellOfCol cols r c) (cellOfCol cols t c) := by
  simp only [rowLE]
  rw [if_neg h]

/-- On non-null cells the descending comparison is exactly the flipped
ascending comparison (with a null on either side this fails: nulls sort
last in both directions). -/
theorem cellLE_flip_of_some {a b : Cell} (ha : a.isSome = true)
    (hb : b.isSome = true) (h : cellLE true a b = true) :
    cellLE false b a = true := by
  rcases a with - | x
  · simp at ha
  · rcases b with - | y
    · simp at hb
    · simpa [cellLE] using h

/-- On a column whose cells are non-null and pairwise distinct, stably
sorting descending after sorting ascending yields exactly the reverse of
the ascending order. -/
theorem insertionSort_desc_eq_reverse (cols : List String) (col : String)
    (rows : List Row)
    (hnn : ∀ r ∈ rows, (cellOfCol cols r col).isSome = true)
    (hnd : rows.Pairwise (fun r t =>
      cellOfCol cols r col ≠ cellOfCol cols t col)) :
    List.insertionSort (fun r t => rowLE cols [(col, true)] r t = true)
        (List.insertionSort (fun r t => rowLE cols [(col, false)] r t = true)
          rows) =
      (List.insertionSort (fun r t => rowLE cols [(col, false)] r t = true)
        rows).reverse := by
  set Ra := fun r t : Row => rowLE cols [(col, false)] r t = true with hRa
  set Rd := fun r t : Row => rowLE cols [(col, true)] r t = true with hRd
  set A := List.insertionSort Ra rows with hAdef
  set D := List.insertionSort Rd A with hDdef
  haveI : IsTotal Row Ra := ⟨fun r t => rowLE_total cols _ r t⟩
  haveI : IsTrans Row Ra := ⟨fun _ _ _ => rowLE_trans cols _⟩
  haveI : IsTotal Row Rd := ⟨fun r t => rowLE_total cols _ r t⟩
  haveI : IsTrans Row Rd := ⟨fun _ _ _ => rowLE_trans cols _⟩
  have permA : A.Perm rows := List.perm_insertionSort Ra rows
  have permD : D.Perm A := List.perm_insertionSort Rd A
  have hsym : Symmetric (fun r t : Row =>
      cellOfCol cols r col ≠ cellOfCol cols t col) :=
    fun _ _ h => Ne.symm h
  have hnnA : ∀ r ∈ A, (cellOfCol cols r col).isSome = true :=
    fun r hr => hnn r (permA.mem_iff.mp hr)
  have hndA : A.Pairwise (fun r t =>
      cellOfCol cols r col ≠ cellOfCol cols t col) :=
    (permA.pairwise_iff (fun hxy => hsym hxy)).mpr hnd
  have hnnD : ∀ r ∈ D, (cellOfCol cols r col).isSome = true :=
    fun r hr => hnnA r (permD.mem_iff.mp hr)
  have hndD : D.Pairwise (fun r t =>
      cellOfCol cols r col ≠ cellOfCol cols t col) :=
    (permD.pairwise_iff (fun hxy => hsym hxy)).mpr hndA
  have hsortA : A.Pairwise Ra := List.sorted_insertionSort Ra rows
  have hsortD : D.Pairwise Rd := List.sorted_insertionSort Rd A
  have hlt : A.Pairwise (fun r t =>
      cellLE false (cellOfCol cols r col) (cellOfCol cols t col) = true ∧
      cellOfCol cols t col ≠ cellOfCol cols r col) := by
    refine List.Pairwise.imp_of_mem ?_ (hsortA.and hndA)
    intro a b ha hb hab
    have hle : rowLE cols [(col, false)] a b = true := hab.1
    rw [rowLE_single_of_ne cols col false hab.2] at hle
    exact ⟨hle, Ne.symm hab.2⟩
  have hgt : D.Pairwise (fun r t =>
      cellLE false (cellOfCol cols t col) (cellOfCol cols r col) = true ∧
      cellOfCol cols r col ≠ cellOfCol cols t col) := by
    refine List.Pairwise.imp_of_mem ?_ (hsortD.and hndD)
    intro a b ha hb hab
    have hle : rowLE cols [(col, true)] a b = true := hab.1
    rw [rowLE_single_of_ne cols col true hab.2] at hle
    exact ⟨cellLE_flip_of_some (hnnD a ha) (hnnD b hb) hle, hab.2⟩
  have hrev : A.reverse.Pairwise (fun r t =>
      cellLE false (cellOfCol cols t col) (cellOfCol cols r col) = true ∧
      cellOfCol cols r col ≠ cellOfCol cols t col) :=
    List.pairwise_reverse.mpr hlt
  have hperm : D.Perm A.reverse := permD.trans A.reverse_perm.symm
  haveI : IsAntisymm Row (fun r t : Row =>
      cellLE false (cellOfCol cols t col) (cellOfCol cols r col) = true ∧
      cellOfCol cols r col ≠ cellOfCol cols t col) :=
    ⟨fun a b h1 h2 => absurd (cellLE_antisymm false h2.1 h1.1) h1.2⟩
  exact List.eq_of_perm_of_sorted hperm hgt hrev

/-- C9 amended: starting with no sort keys, sorting a column whose
values are non-null and pairwise distinct ascending and then descending
yields exactly the reverse of the ascending row order (with nulls, both
directions put the nulls last, so the orders are not mutual reverses). -/
theorem C9_sort_reverse_amended :
    ∀ s : ViewState,
      s.cursor_coordinate.2 < s.df.columns.length →
      s.sorted_columns = [] →
      (∀ r ∈ s.df.rows, (cellOfCol s.df.columns r
        (s.df.columns.getD s.cursor_coordinate.2 "")).isSome = true) →
      s.df.rows.Pairwise (fun r t =>
        cellOfCol s.df.columns r (s.df.columns.getD s.cursor_coordinate.2 "") ≠
        cellOfCol s.df.columns t (s.df.columns.getD s.cursor_coordinate.2 "")) →
      (sort_by_column true (sort_by_column false s).1).1.df.rows =
        ((sort_by_column false s).1.df.rows).reverse := by
  intro s hcol hkeys hnn hnd
  set col := s.df.columns.getD s.cursor_coordinate.2 "" with hcoldef
  have hne1 : lookupFlag col s.sorted_columns ≠ some false := by
    rw [hkeys]
    simp [lookupFlag]
  have hc1 := sort_by_column_commit s false hcol hne1
  set s1 := (sort_by_column false s).1 with hs1
  have hkeys1 : sortKeysAfter s false = [(col, false)] := by
    simp [sortKeysAfter, hkeys, lookupFlag, hcoldef]
  have hsc1 : s1.sorted_columns = [(col, false)] := by rw [hc1.1, hkeys1]
  have hcols1 : s1.df.columns = s.df.columns := hc1.2.1
  have hcur1 : s1.cursor_coordinate = (0, s.cursor_coordinate.2) :=
    hc1.2.2.2.2.2.2
  have hrows1 : s1.df.rows = List.insertionSort
      (fun r t => rowLE s.df.columns [(col, false)] r t = true) s.df.rows := by
    rw [hc1.2.2.2.1, hkeys1, sortRows_eq]
  have hcol2 : s1.cursor_coordinate.2 < s1.df.columns.length := by
    rw [hcur1, hcols1]
    exact hcol
  have hgetD2 : s1.df.columns.getD s1.cursor_coordinate.2 "" = col := by
    rw [hcur1, hcols1]
  have hne2 : lookupFlag (s1.df.columns.getD s1.cursor_coordinate.2 "")
      s1.sorted_columns ≠ some true := by
    rw [hgetD2, hsc1]
    simp [lookupFlag]
  have hc2 := sort_by_column_commit s1 true hcol2 hne2
  have hkeys2 : sortKeysAfter s1 true = [(col, true)] := by
    unfold sortKeysAfter
    rw [hgetD2, hsc1]
    simp [lookupFlag]
  have hrows2 : (sort_by_column true s1).1.df.rows = List.insertionSort
      (fun r t => rowLE s1.df.columns [(col, true)] r t = true) s1.df.rows := by
    rw [hc2.2.2.2.1, hkeys2, sortRows_eq]
  rw [hrows2, hcols1, hrows1]
  exact insertionSort_desc_eq_reverse s.df.columns col s.df.rows hnn hnd

/-- C9 counterexample: with a null in the column, sorting ascending then
descending does not reverse the row order, because nulls are placed last
in both directions. -/
theorem C9_sort_reverse_counterexample :
    (sort_by_column true (sort_by_column false stC9).1).1.df.rows ≠
      ((sort_by_column false stC9).1.df.rows).reverse := by decide

/-- Witness for C9 amended at a concrete distinct integer column. -/
theorem C9_sort_reverse_amended_witness :
    (sort_by_column true (sort_by_column false stW9).1).1.df.rows =
      ((sort_by_column false stW9).1.df.rows).reverse :=
  C9_sort_reverse_amended stW9 (by decide) (by decide) (by decide) (by decide)
